import Mathlib

/-!
Formal model of the storage validation engine found in
pkg/apis/storage/validation/validation.go of the kubernetes repository.

The Go code is embedded shallowly:

* Go pointers become `Option`; a nil-pointer dereference (a fatal panic in
  Go) is modelled by returning `none` from an `Option Errs`-valued
  function, so a function of result type `Errs` is one that can never
  panic.
* Go maps (`map[string]string`) become association lists
  `List (String × String)`; `sets.String` becomes a `List String` used
  only through membership and idempotent insertion.
* Go `len` on strings is the UTF-8 byte length, modelled by `goLen`.
* External collaborators that live outside this source file
  (object-meta validation, qualified-name checking, the feature-gate
  oracle, persistent-volume-spec validation, topology-term validation,
  label-selector validation, non-negativity checks) are supplied as an
  explicit record of functions, `Externals`; theorems quantify over it.
* Bad-value payloads of errors are kept as a small sum type `BadVal`;
  the rendered detail strings of `TooLong` and `NotSupported` errors are
  abstracted, but the breached limit of a `TooLong` error is carried
  explicitly in the `limit` field, mirroring the field.Error payload.
-/

set_option maxHeartbeats 1000000

namespace StorageValidation

/-- Segment of a field path: a named field or a collection index. -/
inductive Seg where
  | field (name : String)
  | idx (i : Nat)
deriving DecidableEq, Repr

/-- Field path, root segment first.  Models field.Path. -/
abbrev Path := List Seg

/-- Models fldPath.Child(name): non-mutating extension by a field name. -/
def Path.Child (p : Path) (name : String) : Path := p ++ [Seg.field name]

/-- Models fldPath.Index(i): non-mutating extension by a collection index. -/
def Path.Index (p : Path) (i : Nat) : Path := p ++ [Seg.idx i]

/-- Byte length of a Go string: the sum of the UTF-8 sizes of its
characters, which is what Go len() returns on a string. -/
def goLen (s : String) : Nat := s.data.foldl (fun n c => n + c.utf8Size) 0

/-- Models the metadata section of a descriptor.  Only the identity name
is relevant to this file; everything else about object metadata is
handled by the external collaborators. -/
structure ObjectMeta where
  name : String
deriving DecidableEq, Repr

/-- Models api.PersistentVolumeSpec as an abstract token: the storage
validation code never inspects it, it only hands it to the external
persistent-volume-spec validator. -/
structure PersistentVolumeSpec where
  tag : Nat
deriving DecidableEq, Repr

/-- Models api.TopologySelectorLabelRequirement. -/
structure TopologySelectorLabelRequirement where
  key : String
  values : List String
deriving DecidableEq, Repr

/-- Models api.TopologySelectorTerm. -/
structure TopologySelectorTerm where
  matchLabelExpressions : List TopologySelectorLabelRequirement
deriving DecidableEq, Repr

/-- Models storage.StorageClass restricted to the fields consulted by
validation.  ReclaimPolicy and VolumeBindingMode are pointers in Go,
hence Options here; Parameters is a map, hence an association list. -/
structure StorageClass where
  metadata : ObjectMeta
  provisioner : String
  parameters : List (String × String)
  reclaimPolicy : Option String
  volumeBindingMode : Option String
  allowedTopologies : List TopologySelectorTerm
deriving DecidableEq, Repr

/-- Models storage.VolumeError (the Time field is never validated). -/
structure VolumeError where
  message : String
deriving DecidableEq, Repr

/-- Models storage.VolumeAttachmentSource: two optional arms of which
exactly one is supposed to be set. -/
structure VolumeAttachmentSource where
  inlineVolumeSpec : Option PersistentVolumeSpec
  persistentVolumeName : Option String
deriving DecidableEq, Repr

/-- Models storage.VolumeAttachmentSpec. -/
structure VolumeAttachmentSpec where
  attacher : String
  source : VolumeAttachmentSource
  nodeName : String
deriving DecidableEq, Repr

/-- Models storage.VolumeAttachmentStatus. -/
structure VolumeAttachmentStatus where
  attached : Bool
  attachmentMetadata : List (String × String)
  attachError : Option VolumeError
  detachError : Option VolumeError
deriving DecidableEq, Repr

/-- Models storage.VolumeAttachment. -/
structure VolumeAttachment where
  metadata : ObjectMeta
  spec : VolumeAttachmentSpec
  status : VolumeAttachmentStatus
deriving DecidableEq, Repr

/-- Models storage.VolumeNodeResources (Count is a *int32). -/
structure VolumeNodeResources where
  count : Option Int
deriving DecidableEq, Repr

/-- Models storage.CSINodeDriver. -/
structure CSINodeDriver where
  name : String
  nodeID : String
  topologyKeys : List String
  allocatable : Option VolumeNodeResources
deriving DecidableEq, Repr

/-- Models storage.CSINodeSpec. -/
structure CSINodeSpec where
  drivers : List CSINodeDriver
deriving DecidableEq, Repr

/-- Models storage.CSINode. -/
structure CSINode where
  metadata : ObjectMeta
  spec : CSINodeSpec
deriving DecidableEq, Repr

/-- Models storage.TokenRequest (ExpirationSeconds is a *int64). -/
structure TokenRequest where
  audience : String
  expirationSeconds : Option Int
deriving DecidableEq, Repr

/-- Models storage.CSIDriverSpec restricted to the validated fields. -/
structure CSIDriverSpec where
  attachRequired : Option Bool
  podInfoOnMount : Option Bool
  volumeLifecycleModes : List String
  storageCapacity : Option Bool
  fsGroupPolicy : Option String
  tokenRequests : List TokenRequest
deriving DecidableEq, Repr

/-- Models storage.CSIDriver. -/
structure CSIDriver where
  metadata : ObjectMeta
  spec : CSIDriverSpec
deriving DecidableEq, Repr

/-- Models metav1.LabelSelector as an abstract token: it is only handed
to the external label-selector validator and compared for equality. -/
structure LabelSelector where
  tag : Nat
deriving DecidableEq, Repr

/-- Models storage.CSIStorageCapacity restricted to the validated
fields; Capacity (a resource.Quantity pointer) is abstracted to an
optional integer handed to the external non-negativity validator. -/
structure CSIStorageCapacity where
  metadata : ObjectMeta
  nodeTopology : Option LabelSelector
  storageClassName : String
  capacity : Option Int
deriving DecidableEq, Repr

/-- Error kind taxonomy of the field package. -/
inductive ErrorType where
  | required
  | invalid
  | notSupported
  | forbidden
  | duplicate
  | tooLong
  | internal
deriving DecidableEq, Repr

/-- Bad-value payload carried by an error; one constructor per payload
shape that validation.go actually passes to a field.Error constructor. -/
inductive BadVal where
  | str (s : String)
  | optStr (s : Option String)
  | int (i : Int)
  | strMap (m : List (String × String))
  | strList (l : List String)
  | optBool (b : Option Bool)
  | driver (d : CSINodeDriver)
  | vaSpec (s : VolumeAttachmentSpec)
  | selector (s : Option LabelSelector)
deriving DecidableEq, Repr

/-- Models field.Error.  The `limit` field is populated exactly by the
TooLong constructor and carries the breached ceiling. -/
structure FieldError where
  kind : ErrorType
  path : Path
  badValue : BadVal
  detail : String
  limit : Option Nat
deriving DecidableEq, Repr

/-- Validation result: an ordered error list. -/
abbrev Errs := List FieldError

/-- Models field.NewPath(name). -/
def field.NewPath (name : String) : Path := [Seg.field name]

/-- Models field.Required(path, detail). -/
def field.Required (p : Path) (detail : String) : FieldError :=
  ⟨ErrorType.required, p, BadVal.str "", detail, none⟩

/-- Models field.Invalid(path, value, detail). -/
def field.Invalid (p : Path) (value : BadVal) (detail : String) : FieldError :=
  ⟨ErrorType.invalid, p, value, detail, none⟩

/-- Models field.NotSupported(path, value, validValues); the rendered
detail keeps the supported list. -/
def field.NotSupported (p : Path) (value : BadVal) (validValues : List String) : FieldError :=
  ⟨ErrorType.notSupported, p, value, String.intercalate ", " validValues, none⟩

/-- Models field.Forbidden(path, detail). -/
def field.Forbidden (p : Path) (detail : String) : FieldError :=
  ⟨ErrorType.forbidden, p, BadVal.str "", detail, none⟩

/-- Models field.Duplicate(path, value). -/
def field.Duplicate (p : Path) (value : BadVal) : FieldError :=
  ⟨ErrorType.duplicate, p, value, "", none⟩

/-- Models field.TooLong(path, value, maxLength): the breached limit is
carried in the `limit` field. -/
def field.TooLong (p : Path) (value : BadVal) (maxLength : Nat) : FieldError :=
  ⟨ErrorType.tooLong, p, value, "", some maxLength⟩

/-- Feature gates consulted by this file. -/
inductive Feature where
  | CSIMigration
  | CSIStorageCapacity
deriving DecidableEq, Repr

/-- Result type of the external topology-term validator: the raw
expression map (map from key to value set) plus the term errors.  The
Go function always returns a non-nil map, which is why the model wraps
its result in `some` before storing it in the comparison slice. -/
abbrev ExprMap := List (String × List String)

/-- External collaborators of the storage validation engine: everything
validation.go calls that is defined outside this source file, bundled
as an explicit record (the feature-gate oracle included).  Name
validators return message lists that the callers map into errors. -/
structure Externals where
  enabled : Feature → Bool
  validateObjectMeta : ObjectMeta → Bool → (String → Bool → List String) → Path → Errs
  validateObjectMetaUpdate : ObjectMeta → ObjectMeta → Path → Errs
  validateClassName : String → Bool → List String
  validateNodeName : String → Bool → List String
  nameIsDNSSubdomain : String → Bool → List String
  validateQualifiedName : String → Path → Errs
  validateCSIDriverName : String → Path → Errs
  validatePersistentVolumeName : String → Bool → List String
  validatePersistentVolumeSpec : PersistentVolumeSpec → String → Bool → Path → Errs
  validateTopologySelectorTerm : TopologySelectorTerm → Path → ExprMap × Errs
  validateNonnegativeField : Int → Path → Errs
  validateLabelSelector : Option LabelSelector → Path → Errs
  validateNonnegativeQuantity : Int → Path → Errs

/-- maxProvisionerParameterSize = 256 * (1 << 10). -/
def maxProvisionerParameterSize : Nat := 256 * 1024

/-- maxProvisionerParameterLen = 512. -/
def maxProvisionerParameterLen : Nat := 512

/-- maxAttachedVolumeMetadataSize = 256 * (1 << 10). -/
def maxAttachedVolumeMetadataSize : Nat := 256 * 1024

/-- maxVolumeErrorMessageSize = 1024. -/
def maxVolumeErrorMessageSize : Nat := 1024

/-- csiNodeIDMaxLength = 192. -/
def csiNodeIDMaxLength : Nat := 192

/-- csiNodeIDLongerMaxLength = 256. -/
def csiNodeIDLongerMaxLength : Nat := 256

/-- Models CSINodeValidationOptions. -/
structure CSINodeValidationOptions where
  allowLongNodeID : Bool
deriving DecidableEq, Repr

/-- Idempotent insertion into a string set modelled as a list; models
sets.String.Insert and map insertion (only membership matters). -/
def insertName (s : List String) (name : String) : List String :=
  if s.contains name then s else s ++ [name]

/-- supportedReclaimPolicy = sets.NewString("Delete", "Retain"); its
sorted List() form. -/
def supportedReclaimPolicy : List String := ["Delete", "Retain"]

/-- supportedVolumeBindingModes = sets.NewString("Immediate",
"WaitForFirstConsumer"); its sorted List() form. -/
def supportedVolumeBindingModes : List String := ["Immediate", "WaitForFirstConsumer"]

/-- supportedFSGroupPolicy = sets.NewString("ReadWriteOnceWithFSType",
"File", "None"); its sorted List() form. -/
def supportedFSGroupPolicy : List String := ["File", "None", "ReadWriteOnceWithFSType"]

/-- Modelled from the spec: apimachinery ValidateImmutableField (it lives
outside this source file).  Deep structural comparison of the new and old
values; any difference yields an Invalid error tagged "field is
immutable" carrying the new value. -/
def validateImmutableField {α : Type} [DecidableEq α] (newVal oldVal : α) (toBad : α → BadVal)
    (fldPath : Path) : Errs :=
  if newVal = oldVal then [] else [field.Invalid fldPath (toBad newVal) "field is immutable"]

/-- validateProvisioner tests if provisioner is a valid qualified name. -/
def validateProvisioner (ext : Externals) (provisioner : String) (fldPath : Path) : Errs :=
  (if goLen provisioner = 0 then [field.Required fldPath provisioner] else [])
    ++ (if goLen provisioner > 0 then ext.validateQualifiedName provisioner.toLower fldPath else [])

/-- validateParameters tests that the map is within the entry-count
ceiling, that keys are non-empty, and that the summed byte size of keys
and values is within the byte ceiling.  Stage-1 failure returns
immediately. -/
def validateParameters (params : List (String × String)) (fldPath : Path) : Errs :=
  if params.length > maxProvisionerParameterLen then
    [field.TooLong fldPath (BadVal.str "Provisioner Parameters exceeded max allowed")
      maxProvisionerParameterLen]
  else
    (params.filterMap fun kv =>
      if goLen kv.1 < 1 then some (field.Invalid fldPath (BadVal.str kv.1) "field can not be empty.")
      else none)
    ++ (if params.foldl (fun acc kv => acc + goLen kv.1 + goLen kv.2) 0 > maxProvisionerParameterSize
        then [field.TooLong fldPath (BadVal.str "") maxProvisionerParameterSize]
        else [])

/-- validateReclaimPolicy tests that a non-empty reclaim policy is one of
the supported values.  The Go code dereferences the pointer without a
nil check, so a nil pointer is a fatal panic, modelled as `none`. -/
def validateReclaimPolicy (reclaimPolicy : Option String) (fldPath : Path) : Option Errs :=
  match reclaimPolicy with
  | none => none
  | some rp =>
    some (if goLen rp > 0 then
            if supportedReclaimPolicy.contains rp then []
            else [field.NotSupported fldPath (BadVal.optStr (some rp)) supportedReclaimPolicy]
          else [])

/-- validateVolumeBindingMode tests that VolumeBindingMode specifies
valid values (the pointer is nil-checked before dereferencing). -/
def validateVolumeBindingMode (mode : Option String) (fldPath : Path) : Errs :=
  match mode with
  | none => [field.Required fldPath ""]
  | some m =>
    if supportedVolumeBindingModes.contains m then []
    else [field.NotSupported fldPath (BadVal.optStr (some m)) supportedVolumeBindingModes]

/-- Loop body of validateAllowedTopologies: walks the terms with the
running index and the rawTopologies comparison slice.  The slice starts
pre-sized with nil placeholder maps (`none`), which the always-non-nil
expression map of a term never equals; each scan appends one Duplicate
error per match and the current map is then retained in the slice. -/
def allowedTopologiesLoop (ext : Externals) :
    List TopologySelectorTerm → Nat → List (Option ExprMap) → Path → Errs
  | [], _, _, _ => []
  | term :: rest, i, rawTopologies, fldPath =>
    let idxPath := fldPath.Index i
    let r := ext.validateTopologySelectorTerm term idxPath
    r.2
      ++ (rawTopologies.filterMap fun t =>
            if t = some r.1 then
              some (field.Duplicate (idxPath.Child "matchLabelExpressions") (BadVal.str ""))
            else none)
      ++ allowedTopologiesLoop ext rest (i + 1) (rawTopologies ++ [some r.1]) fldPath

/-- validateAllowedTopologies tests that AllowedTopologies specifies
valid values; rawTopologies is created with make(..., len(topologies)),
hence the initial nil placeholders. -/
def validateAllowedTopologies (ext : Externals) (topologies : List TopologySelectorTerm)
    (fldPath : Path) : Errs :=
  if topologies.length = 0 then []
  else allowedTopologiesLoop ext topologies 0 (List.replicate topologies.length none) fldPath

/-- ValidateStorageClass validates a StorageClass.  The result is
`none` when validateReclaimPolicy panics on a nil pointer. -/
def ValidateStorageClass (ext : Externals) (storageClass : StorageClass) : Option Errs :=
  match validateReclaimPolicy storageClass.reclaimPolicy (field.NewPath "reclaimPolicy") with
  | none => none
  | some reclaimErrs =>
    some (ext.validateObjectMeta storageClass.metadata false ext.validateClassName
            (field.NewPath "metadata")
      ++ validateProvisioner ext storageClass.provisioner (field.NewPath "provisioner")
      ++ validateParameters storageClass.parameters (field.NewPath "parameters")
      ++ reclaimErrs
      ++ validateVolumeBindingMode storageClass.volumeBindingMode (field.NewPath "volumeBindingMode")
      ++ validateAllowedTopologies ext storageClass.allowedTopologies
           (field.NewPath "allowedTopologies"))

/-- ValidateStorageClassUpdate tests if an update to StorageClass is
valid.  Both ReclaimPolicy pointers are dereferenced without nil
checks, so a nil on either side is a fatal panic (`none`). -/
def ValidateStorageClassUpdate (ext : Externals) (storageClass oldStorageClass : StorageClass) :
    Option Errs :=
  match storageClass.reclaimPolicy, oldStorageClass.reclaimPolicy with
  | some rp, some orp =>
    some (ext.validateObjectMetaUpdate storageClass.metadata oldStorageClass.metadata
            (field.NewPath "metadata")
      ++ (if ¬ (oldStorageClass.parameters = storageClass.parameters) then
            [field.Forbidden (field.NewPath "parameters") "updates to parameters are forbidden."]
          else [])
      ++ (if ¬ (storageClass.provisioner = oldStorageClass.provisioner) then
            [field.Forbidden (field.NewPath "provisioner") "updates to provisioner are forbidden."]
          else [])
      ++ (if ¬ (rp = orp) then
            [field.Forbidden (field.NewPath "reclaimPolicy") "updates to reclaimPolicy are forbidden."]
          else [])
      ++ validateImmutableField storageClass.volumeBindingMode oldStorageClass.volumeBindingMode
           BadVal.optStr (field.NewPath "volumeBindingMode"))
  | _, _ => none

/-- validateAttacher tests if attacher is a valid qualified name. -/
def validateAttacher (attacher : String) (fldPath : Path) : Errs :=
  if goLen attacher = 0 then [field.Required fldPath attacher] else []

/-- validateVolumeAttachmentSource tests if the source is valid: exactly
one of inlineVolumeSpec and persistentVolumeName must be set.  The
Required message for the neither-arm case depends on the CSIMigration
feature gate. -/
def validateVolumeAttachmentSource (ext : Externals) (source : VolumeAttachmentSource)
    (fldPath : Path) : Errs :=
  match source.inlineVolumeSpec, source.persistentVolumeName with
  | none, none =>
    if ext.enabled Feature.CSIMigration then
      [field.Required fldPath "must specify exactly one of inlineVolumeSpec and persistentVolumeName"]
    else
      [field.Required fldPath "must specify persistentVolumeName when CSIMigration feature is disabled"]
  | some _, some _ =>
    [field.Forbidden fldPath "must specify exactly one of inlineVolumeSpec and persistentVolumeName"]
  | none, some pvName =>
    if goLen pvName = 0 then
      [field.Required (fldPath.Child "persistentVolumeName") "must specify non empty persistentVolumeName"]
    else []
  | some spec, none =>
    ext.validatePersistentVolumeSpec spec "" true (fldPath.Child "inlineVolumeSpec")

/-- validateNodeName maps the external node-name messages into Invalid
errors at the field path. -/
def validateNodeName (ext : Externals) (nodeName : String) (fldPath : Path) : Errs :=
  (ext.validateNodeName nodeName false).map fun msg =>
    field.Invalid fldPath (BadVal.str nodeName) msg

/-- validateVolumeAttachmentSpec tests that the specified
VolumeAttachmentSpec has valid data. -/
def validateVolumeAttachmentSpec (ext : Externals) (spec : VolumeAttachmentSpec)
    (fldPath : Path) : Errs :=
  validateAttacher spec.attacher (fldPath.Child "attacher")
    ++ validateVolumeAttachmentSource ext spec.source (fldPath.Child "source")
    ++ validateNodeName ext spec.nodeName (fldPath.Child "nodeName")

/-- validateAttachmentMetadata checks the summed byte size of the
attachment metadata map against its byte ceiling. -/
def validateAttachmentMetadata (metadata : List (String × String)) (fldPath : Path) : Errs :=
  if metadata.foldl (fun acc kv => acc + goLen kv.1 + goLen kv.2) 0 > maxAttachedVolumeMetadataSize
  then [field.TooLong fldPath (BadVal.strMap metadata) maxAttachedVolumeMetadataSize]
  else []

/-- validateVolumeError checks the message length of a volume error
against maxVolumeErrorMessageSize; note that the limit placed in the
error is maxAttachedVolumeMetadataSize, exactly as in the source. -/
def validateVolumeError (e : Option VolumeError) (fldPath : Path) : Errs :=
  match e with
  | none => []
  | some err =>
    if goLen err.message > maxVolumeErrorMessageSize then
      [field.TooLong (fldPath.Child "message") (BadVal.str err.message)
        maxAttachedVolumeMetadataSize]
    else []

/-- validateVolumeAttachmentStatus tests if volumeAttachmentStatus is
valid. -/
def validateVolumeAttachmentStatus (status : VolumeAttachmentStatus) (fldPath : Path) : Errs :=
  validateAttachmentMetadata status.attachmentMetadata (fldPath.Child "attachmentMetadata")
    ++ validateVolumeError status.attachError (fldPath.Child "attachError")
    ++ validateVolumeError status.detachError (fldPath.Child "detachError")

/-- ValidateVolumeAttachment validates a VolumeAttachment. -/
def ValidateVolumeAttachment (ext : Externals) (volumeAttachment : VolumeAttachment) : Errs :=
  ext.validateObjectMeta volumeAttachment.metadata false ext.validateClassName
      (field.NewPath "metadata")
    ++ validateVolumeAttachmentSpec ext volumeAttachment.spec (field.NewPath "spec")
    ++ validateVolumeAttachmentStatus volumeAttachment.status (field.NewPath "status")

/-- ValidateVolumeAttachmentV1 contains the extra v1-only checks. -/
def ValidateVolumeAttachmentV1 (ext : Externals) (volumeAttachment : VolumeAttachment) : Errs :=
  ext.validateCSIDriverName volumeAttachment.spec.attacher (field.NewPath "spec.attacher")
    ++ (match volumeAttachment.spec.source.persistentVolumeName with
        | some pvName =>
          (ext.validatePersistentVolumeName pvName false).map fun msg =>
            field.Invalid (field.NewPath "spec.source.persistentVolumeName")
              (BadVal.str pvName) msg
        | none => [])

/-- ValidateVolumeAttachmentUpdate validates a VolumeAttachment update:
create validation on the new object plus the read-only Spec check. -/
def ValidateVolumeAttachmentUpdate (ext : Externals) (new old : VolumeAttachment) : Errs :=
  ValidateVolumeAttachment ext new
    ++ (if ¬ (old.spec = new.spec) then
          [field.Invalid (field.NewPath "spec") (BadVal.vaSpec new.spec) "field is immutable"]
        else [])

/-- validateCSINodeDriverNodeID tests if a CSINodeDriver node id is
non-empty and within the applicable length ceiling. -/
def validateCSINodeDriverNodeID (nodeID : String) (fldPath : Path)
    (validationOpts : CSINodeValidationOptions) : Errs :=
  (if goLen nodeID = 0 then [field.Required fldPath nodeID] else [])
    ++ (let maxLength := if validationOpts.allowLongNodeID then csiNodeIDLongerMaxLength
                         else csiNodeIDMaxLength
        if goLen nodeID > maxLength then
          [field.Invalid fldPath (BadVal.str nodeID)
            ("must be " ++ toString maxLength ++ " characters or less")]
        else [])

/-- validateCSINodeDriverAllocatable tests if Allocatable has a valid
volume limit (nil pointers are checked before dereferencing). -/
def validateCSINodeDriverAllocatable (ext : Externals) (a : Option VolumeNodeResources)
    (fldPath : Path) : Errs :=
  match a with
  | none => []
  | some res =>
    match res.count with
    | none => []
    | some c => ext.validateNonnegativeField c (fldPath.Child "count")

/-- Loop over a driver's TopologyKeys with the running topoKeys set:
empty-key check, then duplicate check at the entry path, then the
qualified-name check; the key is retained in the set in between. -/
def topoKeysLoop (ext : Externals) : List String → List String → Path → Errs
  | [], _, _ => []
  | key :: rest, topoKeys, fldPath =>
    (if goLen key = 0 then [field.Required fldPath key] else [])
      ++ (if topoKeys.contains key then [field.Duplicate fldPath (BadVal.str key)] else [])
      ++ ext.validateQualifiedName key fldPath
      ++ topoKeysLoop ext rest (insertName topoKeys key) fldPath

/-- validateCSINodeDriver tests one CSINodeDriver entry against the
running driverNamesInSpecs set; returns the entry errors together with
the updated set (the Go code mutates the set in place). -/
def validateCSINodeDriver (ext : Externals) (driver : CSINodeDriver)
    (driverNamesInSpecs : List String) (fldPath : Path)
    (validationOpts : CSINodeValidationOptions) : Errs × List String :=
  (ext.validateCSIDriverName driver.name (fldPath.Child "name")
      ++ validateCSINodeDriverNodeID driver.nodeID (fldPath.Child "nodeID") validationOpts
      ++ validateCSINodeDriverAllocatable ext driver.allocatable (fldPath.Child "allocatable")
      ++ (if driverNamesInSpecs.contains driver.name then
            [field.Duplicate (fldPath.Child "name") (BadVal.str driver.name)]
          else [])
      ++ topoKeysLoop ext driver.topologyKeys [] fldPath,
   insertName driverNamesInSpecs driver.name)

/-- Loop body of validateCSINodeDrivers with the running index and the
driverNamesInSpecs set threaded through the entries. -/
def csiNodeDriversLoop (ext : Externals) (validationOpts : CSINodeValidationOptions) :
    List CSINodeDriver → Nat → List String → Path → Errs
  | [], _, _, _ => []
  | driver :: rest, i, seen, fldPath =>
    let r := validateCSINodeDriver ext driver seen (fldPath.Index i) validationOpts
    r.1 ++ csiNodeDriversLoop ext validationOpts rest (i + 1) r.2 fldPath

/-- validateCSINodeDrivers tests that the specified CSINodeDrivers have
valid data. -/
def validateCSINodeDrivers (ext : Externals) (drivers : List CSINodeDriver) (fldPath : Path)
    (validationOpts : CSINodeValidationOptions) : Errs :=
  csiNodeDriversLoop ext validationOpts drivers 0 [] fldPath

/-- validateCSINodeSpec tests that the specified CSINodeSpec has valid
data. -/
def validateCSINodeSpec (ext : Externals) (spec : CSINodeSpec) (fldPath : Path)
    (validationOpts : CSINodeValidationOptions) : Errs :=
  validateCSINodeDrivers ext spec.drivers (fldPath.Child "drivers") validationOpts

/-- ValidateCSINode validates a CSINode. -/
def ValidateCSINode (ext : Externals) (csiNode : CSINode)
    (validationOpts : CSINodeValidationOptions) : Errs :=
  ext.validateObjectMeta csiNode.metadata false ext.validateNodeName (field.NewPath "metadata")
    ++ validateCSINodeSpec ext csiNode.spec (field.NewPath "spec") validationOpts

/-- Inner loop of the CSINodeUpdate immutability check: one old driver
against every new driver. -/
def csiNodeUpdateInner (oldDriver : CSINodeDriver) : List CSINodeDriver → Errs
  | [] => []
  | newDriver :: rest =>
    (if oldDriver.name = newDriver.name then
       if oldDriver = newDriver then []
       else
         [field.Invalid (field.NewPath "CSINodeDriver") (BadVal.driver newDriver)
           "field is immutable"]
     else [])
      ++ csiNodeUpdateInner oldDriver rest

/-- Outer loop of the CSINodeUpdate immutability check: every old driver
against the new driver list. -/
def csiNodeUpdateOuter : List CSINodeDriver → List CSINodeDriver → Errs
  | [], _ => []
  | oldDriver :: rest, newDrivers =>
    csiNodeUpdateInner oldDriver newDrivers ++ csiNodeUpdateOuter rest newDrivers

/-- ValidateCSINodeUpdate validates a CSINode update: create validation
on the new object, then the pairwise immutability check on drivers whose
name exists in both old and new. -/
def ValidateCSINodeUpdate (ext : Externals) (new old : CSINode)
    (validationOpts : CSINodeValidationOptions) : Errs :=
  ValidateCSINode ext new validationOpts
    ++ csiNodeUpdateOuter old.spec.drivers new.spec.drivers

/-- validateAttachRequired tests if attachRequired is set. -/
def validateAttachRequired (attachRequired : Option Bool) (fldPath : Path) : Errs :=
  match attachRequired with
  | none => [field.Required fldPath ""]
  | some _ => []

/-- validatePodInfoOnMount tests if podInfoOnMount is set. -/
def validatePodInfoOnMount (podInfoOnMount : Option Bool) (fldPath : Path) : Errs :=
  match podInfoOnMount with
  | none => [field.Required fldPath ""]
  | some _ => []

/-- validateStorageCapacity tests if storageCapacity is set when the
CSIStorageCapacity feature gate is enabled. -/
def validateStorageCapacity (ext : Externals) (storageCapacity : Option Bool)
    (fldPath : Path) : Errs :=
  if storageCapacity = none ∧ ext.enabled Feature.CSIStorageCapacity then
    [field.Required fldPath ""]
  else []

/-- validateFSGroupPolicy tests if FSGroupPolicy contains an appropriate
value (nil means not provided and is accepted). -/
def validateFSGroupPolicy (fsGroupPolicy : Option String) (fldPath : Path) : Errs :=
  match fsGroupPolicy with
  | none => []
  | some p =>
    if supportedFSGroupPolicy.contains p then []
    else [field.NotSupported fldPath (BadVal.optStr (some p)) supportedFSGroupPolicy]

/-- Loop body of validateTokenRequests with the running index and the
audiences set.  A duplicate audience reports one Duplicate error and
skips the expiration checks of that entry (continue). -/
def tokenRequestsLoop : List TokenRequest → Nat → List String → Path → Errs
  | [], _, _, _ => []
  | tokenRequest :: rest, i, audiences, fldPath =>
    let path := fldPath.Index i
    if audiences.contains tokenRequest.audience then
      field.Duplicate (path.Child "audience") (BadVal.str tokenRequest.audience)
        :: tokenRequestsLoop rest (i + 1) audiences fldPath
    else
      (match tokenRequest.expirationSeconds with
       | none => []
       | some v =>
         (if v < 600 then
            [field.Invalid (path.Child "expirationSeconds") (BadVal.int v)
              "may not specify a duration less than 10 minutes"]
          else [])
           ++ (if v > 4294967296 then
                 [field.Invalid (path.Child "expirationSeconds") (BadVal.int v)
                   "may not specify a duration larger than 2^32 seconds"]
               else []))
        ++ tokenRequestsLoop rest (i + 1) (insertName audiences tokenRequest.audience) fldPath

/-- validateTokenRequests tests that the Audience of each TokenRequest
is different and that expiration bounds hold for first occurrences. -/
def validateTokenRequests (tokenRequests : List TokenRequest) (fldPath : Path) : Errs :=
  tokenRequestsLoop tokenRequests 0 [] fldPath

/-- validateVolumeLifecycleModes tests if every mode has one of the
allowed values. -/
def validateVolumeLifecycleModes (modes : List String) (fldPath : Path) : Errs :=
  modes.flatMap fun mode =>
    if mode = "Persistent" ∨ mode = "Ephemeral" then []
    else [field.NotSupported fldPath (BadVal.str mode) ["Persistent", "Ephemeral"]]

/-- validateCSIDriverSpec tests that the specified CSIDriverSpec has
valid data. -/
def validateCSIDriverSpec (ext : Externals) (spec : CSIDriverSpec) (fldPath : Path) : Errs :=
  validateAttachRequired spec.attachRequired (fldPath.Child "attachedRequired")
    ++ validatePodInfoOnMount spec.podInfoOnMount (fldPath.Child "podInfoOnMount")
    ++ validateStorageCapacity ext spec.storageCapacity (fldPath.Child "storageCapacity")
    ++ validateFSGroupPolicy spec.fsGroupPolicy (fldPath.Child "fsGroupPolicy")
    ++ validateTokenRequests spec.tokenRequests (fldPath.Child "tokenRequests")
    ++ validateVolumeLifecycleModes spec.volumeLifecycleModes (fldPath.Child "volumeLifecycleModes")

/-- ValidateCSIDriver validates a CSIDriver. -/
def ValidateCSIDriver (ext : Externals) (csiDriver : CSIDriver) : Errs :=
  ext.validateObjectMeta csiDriver.metadata false ext.nameIsDNSSubdomain (field.NewPath "metadata")
    ++ validateCSIDriverSpec ext csiDriver.spec (field.NewPath "spec")

/-- ValidateCSIDriverUpdate validates a CSIDriver update: metadata
update rules, per-field immutability checks, and the token-request
check; create validation is not re-run. -/
def ValidateCSIDriverUpdate (ext : Externals) (new old : CSIDriver) : Errs :=
  ext.validateObjectMetaUpdate new.metadata old.metadata (field.NewPath "metadata")
    ++ validateImmutableField new.spec.attachRequired old.spec.attachRequired BadVal.optBool
         ((field.NewPath "spec").Child "attachedRequired")
    ++ validateImmutableField new.spec.fsGroupPolicy old.spec.fsGroupPolicy BadVal.optStr
         ((field.NewPath "spec").Child "fsGroupPolicy")
    ++ validateImmutableField new.spec.podInfoOnMount old.spec.podInfoOnMount BadVal.optBool
         ((field.NewPath "spec").Child "podInfoOnMount")
    ++ validateImmutableField new.spec.volumeLifecycleModes old.spec.volumeLifecycleModes
         BadVal.strList ((field.NewPath "spec").Child "volumeLifecycleModes")
    ++ validateImmutableField new.spec.storageCapacity old.spec.storageCapacity BadVal.optBool
         ((field.NewPath "spec").Child "storageCapacity")
    ++ validateTokenRequests new.spec.tokenRequests ((field.NewPath "spec").Child "tokenRequests")

/-- ValidateCSIStorageCapacity validates a CSIStorageCapacity. -/
def ValidateCSIStorageCapacity (ext : Externals) (capacity : CSIStorageCapacity) : Errs :=
  ext.validateObjectMeta capacity.metadata true ext.nameIsDNSSubdomain (field.NewPath "metadata")
    ++ ext.validateLabelSelector capacity.nodeTopology (field.NewPath "nodeTopology")
    ++ ((ext.validateClassName capacity.storageClassName false).map fun msg =>
          field.Invalid (field.NewPath "storageClassName") (BadVal.str capacity.storageClassName) msg)
    ++ (match capacity.capacity with
        | none => []
        | some q => ext.validateNonnegativeQuantity q (field.NewPath "capacity"))

/-- ValidateCSIStorageCapacityUpdate tests if an update to
CSIStorageCapacity is valid: metadata update rules plus immutability of
nodeTopology and storageClassName; create validation is not re-run. -/
def ValidateCSIStorageCapacityUpdate (ext : Externals) (capacity oldCapacity : CSIStorageCapacity) :
    Errs :=
  ext.validateObjectMetaUpdate capacity.metadata oldCapacity.metadata (field.NewPath "metadata")
    ++ (if ¬ (capacity.nodeTopology = oldCapacity.nodeTopology) then
          [field.Invalid (field.NewPath "nodeTopology") (BadVal.selector capacity.nodeTopology)
            "field is immutable"]
        else [])
    ++ (if ¬ (capacity.storageClassName = oldCapacity.storageClassName) then
          [field.Invalid (field.NewPath "storageClassName") (BadVal.str capacity.storageClassName)
            "field is immutable"]
        else [])

/-- Externals instance in which every collaborator accepts everything:
name validators return no messages, error-producing validators return
empty results, both feature gates are off, and the topology-term
validator returns the term's expression list as its raw map. -/
def trivialExt : Externals where
  enabled := fun _ => false
  validateObjectMeta := fun _ _ _ _ => []
  validateObjectMetaUpdate := fun _ _ _ => []
  validateClassName := fun _ _ => []
  validateNodeName := fun _ _ => []
  nameIsDNSSubdomain := fun _ _ => []
  validateQualifiedName := fun _ _ => []
  validateCSIDriverName := fun _ _ => []
  validatePersistentVolumeName := fun _ _ => []
  validatePersistentVolumeSpec := fun _ _ _ _ => []
  validateTopologySelectorTerm := fun term _ =>
    (term.matchLabelExpressions.map fun r => (r.key, r.values), [])
  validateNonnegativeField := fun _ _ => []
  validateLabelSelector := fun _ _ => []
  validateNonnegativeQuantity := fun _ _ => []

/-! Helper lemmas about byte lengths and folds. -/

lemma foldl_utf8_acc (l : List Char) :
    ∀ a : Nat, l.foldl (fun n c => n + c.utf8Size) a = a + l.foldl (fun n c => n + c.utf8Size) 0 := by
  induction l with
  | nil => intro a; simp
  | cons c cs ih =>
    intro a
    simp only [List.foldl_cons]
    rw [ih (a + c.utf8Size), ih (0 + c.utf8Size)]
    omega

lemma goLen_replicate_a (n : Nat) : goLen (String.mk (List.replicate n 'a')) = n := by
  induction n with
  | zero => rfl
  | succ m ih =>
    show (List.replicate (m + 1) 'a').foldl (fun n c => n + Char.utf8Size c) 0 = m + 1
    rw [List.replicate_succ, List.foldl_cons, foldl_utf8_acc]
    have h2 : goLen (String.mk (List.replicate m 'a')) = m := ih
    simp only [goLen] at h2
    rw [h2]
    have h3 : Char.utf8Size 'a' = 1 := by decide
    omega

lemma byteSum_replicate_acc (kv : String × String) :
    ∀ (n : Nat) (a : Nat),
      (List.replicate n kv).foldl (fun acc x => acc + goLen x.1 + goLen x.2) a
        = a + n * (goLen kv.1 + goLen kv.2) := by
  intro n
  induction n with
  | zero => intro a; simp
  | succ m ih =>
    intro a
    rw [List.replicate_succ, List.foldl_cons, ih]
    ring

/-! C4: the two-stage quota in validateParameters. -/

/-- C4: a parameters map whose entry count exceeds the 512-entry ceiling
is rejected with exactly one TooLong error carrying the count ceiling as
its limit, and nothing else (the byte-sum stage is short-circuited);
a map within the count ceiling whose summed key-plus-value byte length
exceeds the 256 kB ceiling receives a TooLong error carrying the byte
ceiling. -/
theorem c4_parameters_two_stage_quota (params : List (String × String)) (fldPath : Path) :
    (params.length > maxProvisionerParameterLen →
      validateParameters params fldPath =
        [field.TooLong fldPath (BadVal.str "Provisioner Parameters exceeded max allowed")
          maxProvisionerParameterLen])
    ∧ (params.length ≤ maxProvisionerParameterLen →
      params.foldl (fun acc kv => acc + goLen kv.1 + goLen kv.2) 0 > maxProvisionerParameterSize →
      field.TooLong fldPath (BadVal.str "") maxProvisionerParameterSize
        ∈ validateParameters params fldPath) := by
  constructor
  · intro h
    simp only [validateParameters, if_pos h]
  · intro h1 h2
    have hnot : ¬ params.length > maxProvisionerParameterLen := by omega
    simp only [validateParameters, if_neg hnot, if_pos h2]
    exact List.mem_append.mpr (Or.inr (List.mem_singleton.mpr rfl))

/-- Concrete parameters map with 513 entries. -/
def paramsOverCount : List (String × String) := List.replicate 513 ("k", "v")

/-- Concrete 512-byte ASCII value string. -/
def value512 : String := String.mk (List.replicate 512 'a')

/-- Concrete parameters map with 512 entries of 513 bytes each. -/
def paramsOverBytes : List (String × String) := List.replicate 512 ("k", value512)

/-- Witness for C4: both stages fire on explicit inputs. -/
theorem c4_witness :
    (paramsOverCount.length > maxProvisionerParameterLen
      ∧ validateParameters paramsOverCount (field.NewPath "parameters") =
          [field.TooLong (field.NewPath "parameters")
            (BadVal.str "Provisioner Parameters exceeded max allowed") maxProvisionerParameterLen])
    ∧ (paramsOverBytes.length ≤ maxProvisionerParameterLen
      ∧ paramsOverBytes.foldl (fun acc kv => acc + goLen kv.1 + goLen kv.2) 0
          > maxProvisionerParameterSize
      ∧ field.TooLong (field.NewPath "parameters") (BadVal.str "") maxProvisionerParameterSize
          ∈ validateParameters paramsOverBytes (field.NewPath "parameters")) := by
  have hcount : paramsOverCount.length > maxProvisionerParameterLen := by
    simp only [paramsOverCount, List.length_replicate, maxProvisionerParameterLen]
    omega
  have hlen : paramsOverBytes.length ≤ maxProvisionerParameterLen := by
    simp only [paramsOverBytes, List.length_replicate, maxProvisionerParameterLen]
    omega
  have hbytes : paramsOverBytes.foldl (fun acc kv => acc + goLen kv.1 + goLen kv.2) 0
      > maxProvisionerParameterSize := by
    have h1 : goLen "k" = 1 := by decide
    have h2 : goLen value512 = 512 := goLen_replicate_a 512
    have h3 := byteSum_replicate_acc ("k", value512) 512 0
    simp only [paramsOverBytes, h3, h1, h2, maxProvisionerParameterSize]
    omega
  exact ⟨⟨hcount, (c4_parameters_two_stage_quota paramsOverCount (field.NewPath "parameters")).1 hcount⟩,
    hlen, hbytes,
    (c4_parameters_two_stage_quota paramsOverBytes (field.NewPath "parameters")).2 hlen hbytes⟩

/-! C5: the limit carried by the volume-error TooLong error. -/

/-- Concrete 1025-byte message, one byte over the message ceiling. -/
def longMessage : String := String.mk (List.replicate 1025 'a')

/-- C5: the claim says the TooLong error for an over-long VolumeError
message carries the 1024-byte message ceiling; the code checks against
maxVolumeErrorMessageSize but places maxAttachedVolumeMetadataSize
(262144) in the error, so the carried limit is not the breached
ceiling.  This theorem evaluates the code at a failing input. -/
theorem c5_volume_error_toolong_carries_wrong_limit :
    validateVolumeError (some ⟨longMessage⟩) ((field.NewPath "status").Child "attachError")
      = [field.TooLong (((field.NewPath "status").Child "attachError").Child "message")
          (BadVal.str longMessage) maxAttachedVolumeMetadataSize]
    ∧ maxAttachedVolumeMetadataSize ≠ maxVolumeErrorMessageSize := by
  constructor
  · have h : goLen longMessage > maxVolumeErrorMessageSize := by
      have := goLen_replicate_a 1025
      simp only [longMessage, maxVolumeErrorMessageSize]
      omega
    simp only [validateVolumeError, if_pos h]
  · decide

/-! C1: entry points return a Result; the nil ReclaimPolicy exception. -/

/-- StorageClass with a nil ReclaimPolicy pointer. -/
def scNilReclaim : StorageClass :=
  ⟨⟨"fast"⟩, "kubernetes.io/aws-ebs", [], none, some "Immediate", []⟩

/-- Counterexample for C1: a nil ReclaimPolicy pointer is dereferenced
unconditionally by validateReclaimPolicy (and by
ValidateStorageClassUpdate), so it is a fatal failure (`none`), not a
Result entry. -/
theorem c1_counterexample_nil_reclaim_policy_is_fatal :
    validateReclaimPolicy none (field.NewPath "reclaimPolicy") = none
    ∧ ValidateStorageClass trivialExt scNilReclaim = none
    ∧ ValidateStorageClassUpdate trivialExt scNilReclaim scNilReclaim = none :=
  ⟨rfl, rfl, rfl⟩

/-- C1 (amended): the StorageClass entry points return a Validation
Result for every input whose ReclaimPolicy pointer is non-nil; a nil
ReclaimPolicy is the one absent reference that is dereferenced rather
than reported.  (The remaining entry points are total functions of
result type `Errs` in this model, i.e. they never fail fatally.) -/
theorem c1_storage_entry_points_return_result_when_reclaim_nonnil :
    (∀ (ext : Externals) (sc : StorageClass), sc.reclaimPolicy ≠ none →
      (ValidateStorageClass ext sc).isSome)
    ∧ (∀ (ext : Externals) (new old : StorageClass),
        new.reclaimPolicy ≠ none → old.reclaimPolicy ≠ none →
        (ValidateStorageClassUpdate ext new old).isSome) := by
  constructor
  · intro ext sc h
    match hrp : sc.reclaimPolicy with
    | none => exact absurd hrp h
    | some rp =>
      simp only [ValidateStorageClass, validateReclaimPolicy, hrp, Option.isSome_some]
  · intro ext new old hn ho
    match hrp : new.reclaimPolicy, hrpo : old.reclaimPolicy with
    | none, _ => exact absurd hrp hn
    | some _, none => exact absurd hrpo ho
    | some rp, some orp =>
      simp only [ValidateStorageClassUpdate, hrp, hrpo, Option.isSome_some]

/-- StorageClass with every pointer present. -/
def scOk : StorageClass :=
  ⟨⟨"fast"⟩, "kubernetes.io/aws-ebs", [], some "Delete", some "Immediate", []⟩

/-- Witness for C1: the amended theorem applied at an explicit
StorageClass whose ReclaimPolicy is present. -/
theorem c1_witness :
    scOk.reclaimPolicy ≠ none
    ∧ (ValidateStorageClass trivialExt scOk).isSome
    ∧ (ValidateStorageClassUpdate trivialExt scOk scOk).isSome :=
  ⟨by decide,
   c1_storage_entry_points_return_result_when_reclaim_nonnil.1 trivialExt scOk (by decide),
   c1_storage_entry_points_return_result_when_reclaim_nonnil.2 trivialExt scOk scOk
     (by decide) (by decide)⟩

/-! C10: the empty reclaim policy is accepted. -/

/-- C10: a ReclaimPolicy pointer referring to the empty string yields no
error from validateReclaimPolicy: the supported-value check applies only
to non-empty values, so neither a Required nor a NotSupported error is
produced. -/
theorem c10_empty_reclaim_policy_accepted (fldPath : Path) :
    validateReclaimPolicy (some "") fldPath = some [] := rfl

/-! Path-locality infrastructure: a validator's errors all sit at or
below the path it was handed. -/

/-- Every error of `es` is at `p` or at an extension of `p`. -/
def ErrsUnder (es : Errs) (p : Path) : Prop := ∀ e ∈ es, ∃ r, e.path = p ++ r

lemma errsUnder_nil (p : Path) : ErrsUnder [] p := by
  intro e he
  exact absurd he (List.not_mem_nil e)

lemma errsUnder_append {a b : Errs} {p : Path} (ha : ErrsUnder a p) (hb : ErrsUnder b p) :
    ErrsUnder (a ++ b) p := by
  intro e he
  rcases List.mem_append.mp he with h | h
  · exact ha e h
  · exact hb e h

lemma errsUnder_single {e : FieldError} {p : Path} (h : ∃ r, e.path = p ++ r) :
    ErrsUnder [e] p := by
  intro x hx
  rw [List.mem_singleton.mp hx]
  exact h

lemma errsUnder_self {e : FieldError} {p : Path} (h : e.path = p) : ErrsUnder [e] p :=
  errsUnder_single ⟨[], by simp [h]⟩

lemma errsUnder_drop {es : Errs} {p q : Path} (h : ErrsUnder es (p ++ q)) : ErrsUnder es p := by
  intro e he
  obtain ⟨r, hr⟩ := h e he
  exact ⟨q ++ r, by simp [hr]⟩

lemma errsUnder_child {es : Errs} {p : Path} {n : String} (h : ErrsUnder es (p.Child n)) :
    ErrsUnder es p := errsUnder_drop h

lemma errsUnder_index {es : Errs} {p : Path} {i : Nat} (h : ErrsUnder es (p.Index i)) :
    ErrsUnder es p := errsUnder_drop h

lemma errsUnder_if {c : Prop} [Decidable c] {a b : Errs} {p : Path}
    (ha : ErrsUnder a p) (hb : ErrsUnder b p) : ErrsUnder (if c then a else b) p := by
  by_cases h : c
  · simpa [h] using ha
  · simpa [h] using hb

lemma errsUnder_ne_path {es : Errs} {p : Path} {q : Path} (h : ErrsUnder es (p ++ q))
    (hq : q ≠ []) : ∀ e ∈ es, e.path ≠ p := by
  intro e he
  obtain ⟨r, hr⟩ := h e he
  intro hc
  rw [hc] at hr
  have hl := congrArg List.length hr
  rw [List.length_append, List.length_append] at hl
  have hq2 : 0 < q.length := List.length_pos.mpr hq
  omega

/-! C3: which update entry points re-run create validation. -/

/-- Concrete topology term used by counterexamples. -/
def termA : TopologySelectorTerm := ⟨[⟨"topology.kubernetes.io/zone", ["us-central1-a"]⟩]⟩

/-- New StorageClass: empty provisioner, one allowed topology. -/
def scNewTopo : StorageClass := ⟨⟨"fast"⟩, "", [], some "Delete", some "Immediate", [termA]⟩

/-- Old StorageClass: identical except for the (update-unchecked)
allowedTopologies field. -/
def scOldTopo : StorageClass := ⟨⟨"fast"⟩, "", [], some "Delete", some "Immediate", []⟩

/-- Counterexample for C3: ValidateStorageClassUpdate does not re-run
create validation: for a pair differing only in the non-immutable
allowedTopologies field, the update result is empty while create
validation of the new object reports a Required provisioner error, so
the two results differ. -/
theorem c3_counterexample_storage_class_update_skips_create :
    scNewTopo ≠ scOldTopo
    ∧ ValidateStorageClassUpdate trivialExt scNewTopo scOldTopo = some []
    ∧ ValidateStorageClass trivialExt scNewTopo
        = some [field.Required (field.NewPath "provisioner") ""]
    ∧ ValidateStorageClassUpdate trivialExt scNewTopo scOldTopo
        ≠ ValidateStorageClass trivialExt scNewTopo := by
  refine ⟨by decide, by decide, by decide, by decide⟩

lemma csiNodeUpdateInner_eq_nil {od : CSINodeDriver} {news : List CSINodeDriver}
    (h : ∀ nd ∈ news, od.name = nd.name → od = nd) : csiNodeUpdateInner od news = [] := by
  induction news with
  | nil => rfl
  | cons nd rest ih =>
    have hname := h nd (List.mem_cons_self nd rest)
    have hrest : ∀ x ∈ rest, od.name = x.name → od = x := fun x hx => h x (List.mem_cons_of_mem nd hx)
    simp only [csiNodeUpdateInner]
    by_cases he : od.name = nd.name
    · rw [if_pos he, if_pos (hname he), List.nil_append, ih hrest]
    · rw [if_neg he, List.nil_append, ih hrest]

lemma csiNodeUpdateOuter_eq_nil {olds news : List CSINodeDriver}
    (h : ∀ od ∈ olds, ∀ nd ∈ news, od.name = nd.name → od = nd) :
    csiNodeUpdateOuter olds news = [] := by
  induction olds with
  | nil => rfl
  | cons od rest ih =>
    have h1 := csiNodeUpdateInner_eq_nil (h od (List.mem_cons_self od rest))
    have h2 : ∀ x ∈ rest, ∀ nd ∈ news, x.name = nd.name → x = nd :=
      fun x hx => h x (List.mem_cons_of_mem od hx)
    simp [csiNodeUpdateOuter, h1, ih h2]

/-- C3 (amended): only ValidateVolumeAttachmentUpdate and
ValidateCSINodeUpdate re-run create validation on the new descriptor
(the StorageClass, CSIDriver and CSIStorageCapacity update validators do
not, see the counterexample).  For those two, a pair differing only in
non-immutable data (equal VolumeAttachment specs; no common driver name
with differing entries) yields an update result equal to create
validation of the new descriptor, with no extra errors from the
immutability differ. -/
theorem c3_update_equals_create_for_attachment_and_csinode :
    (∀ (ext : Externals) (new old : VolumeAttachment), old.spec = new.spec →
      ValidateVolumeAttachmentUpdate ext new old = ValidateVolumeAttachment ext new)
    ∧ (∀ (ext : Externals) (opts : CSINodeValidationOptions) (new old : CSINode),
        (∀ od ∈ old.spec.drivers, ∀ nd ∈ new.spec.drivers, od.name = nd.name → od = nd) →
        ValidateCSINodeUpdate ext new old opts = ValidateCSINode ext new opts) := by
  constructor
  · intro ext new old h
    simp [ValidateVolumeAttachmentUpdate, h]
  · intro ext opts new old h
    simp [ValidateCSINodeUpdate, csiNodeUpdateOuter_eq_nil h]

/-- Concrete VolumeAttachment spec. -/
def vaSpecA : VolumeAttachmentSpec := ⟨"csi.example.com", ⟨none, some "pv-1"⟩, "node-1"⟩

/-- New VolumeAttachment (attached). -/
def vaNew : VolumeAttachment := ⟨⟨"va-1"⟩, vaSpecA, ⟨true, [], none, none⟩⟩

/-- Old VolumeAttachment: differs from vaNew only in status. -/
def vaOld : VolumeAttachment := ⟨⟨"va-1"⟩, vaSpecA, ⟨false, [], none, none⟩⟩

/-- New CSINode with one driver. -/
def nodeNew : CSINode := ⟨⟨"node-1"⟩, ⟨[⟨"io.driver", "nid", [], none⟩]⟩⟩

/-- Old CSINode with no drivers (a purely additive update). -/
def nodeOld : CSINode := ⟨⟨"node-1"⟩, ⟨[]⟩⟩

/-- Witness for C3: the amended theorem applied at explicit pairs. -/
theorem c3_witness :
    (vaOld.spec = vaNew.spec
      ∧ ValidateVolumeAttachmentUpdate trivialExt vaNew vaOld
          = ValidateVolumeAttachment trivialExt vaNew)
    ∧ ValidateCSINodeUpdate trivialExt nodeNew nodeOld ⟨false⟩
        = ValidateCSINode trivialExt nodeNew ⟨false⟩ :=
  ⟨⟨rfl, c3_update_equals_create_for_attachment_and_csinode.1 trivialExt vaNew vaOld rfl⟩,
   c3_update_equals_create_for_attachment_and_csinode.2 trivialExt ⟨false⟩ nodeNew nodeOld
     (by intro od hod; exact absurd hod (List.not_mem_nil od))⟩

/-! C6: the exactly-one-of rule for VolumeAttachmentSource. -/

/-- C6: validateVolumeAttachmentSource reports Required at the source
path when neither arm is set (message depending on the CSIMigration
gate), Forbidden at the source path when both arms are set, and neither
of those errors when exactly one arm is set (given that the external
persistent-volume-spec validator keeps its errors under the path it is
handed). -/
theorem c6_volume_attachment_source_exactly_one (ext : Externals)
    (source : VolumeAttachmentSource) (fldPath : Path)
    (hpv : ∀ sp s b q, ErrsUnder (ext.validatePersistentVolumeSpec sp s b q) q) :
    (source.inlineVolumeSpec = none → source.persistentVolumeName = none →
      validateVolumeAttachmentSource ext source fldPath =
        [field.Required fldPath
          (if ext.enabled Feature.CSIMigration then
            "must specify exactly one of inlineVolumeSpec and persistentVolumeName"
          else
            "must specify persistentVolumeName when CSIMigration feature is disabled")])
    ∧ (source.inlineVolumeSpec ≠ none → source.persistentVolumeName ≠ none →
      validateVolumeAttachmentSource ext source fldPath =
        [field.Forbidden fldPath
          "must specify exactly one of inlineVolumeSpec and persistentVolumeName"])
    ∧ (source.inlineVolumeSpec.isSome ≠ source.persistentVolumeName.isSome →
      ∀ e ∈ validateVolumeAttachmentSource ext source fldPath,
        ¬ (e.path = fldPath ∧ (e.kind = ErrorType.required ∨ e.kind = ErrorType.forbidden))) := by
  obtain ⟨inl, pv⟩ := source
  refine ⟨?_, ?_, ?_⟩
  · intro h1 h2
    simp only at h1 h2
    subst h1; subst h2
    cases hg : ext.enabled Feature.CSIMigration <;>
      simp [validateVolumeAttachmentSource, hg]
  · intro h1 h2
    simp only at h1 h2
    match hi : inl, hp : pv with
    | none, _ => exact absurd rfl h1
    | some _, none => exact absurd rfl h2
    | some sp, some pvn => simp [validateVolumeAttachmentSource]
  · intro hne e he hc
    obtain ⟨hpath, _⟩ := hc
    match hi : inl, hp : pv with
    | none, none => simp [hi, hp] at hne
    | some _, some _ => simp [hi, hp] at hne
    | some sp, none =>
      simp only [validateVolumeAttachmentSource, hi, hp] at he
      have := errsUnder_ne_path (p := fldPath) (q := [Seg.field "inlineVolumeSpec"])
        (hpv sp "" true (fldPath.Child "inlineVolumeSpec")) (by simp) e he
      exact this hpath
    | none, some pvn =>
      simp only [validateVolumeAttachmentSource, hi, hp] at he
      by_cases hz : goLen pvn = 0
      · rw [if_pos hz] at he
        have : ErrsUnder [field.Required (fldPath.Child "persistentVolumeName")
            "must specify non empty persistentVolumeName"] (fldPath.Child "persistentVolumeName") :=
          errsUnder_self rfl
        have hne2 := errsUnder_ne_path (p := fldPath) (q := [Seg.field "persistentVolumeName"])
          this (by simp) e he
        exact hne2 hpath
      · rw [if_neg hz] at he
        exact absurd he (List.not_mem_nil e)

/-- Witness for C6: the theorem applied to trivialExt (whose
persistent-volume-spec validator returns no errors, hence is trivially
path-local) at explicit sources. -/
theorem c6_witness :
    validateVolumeAttachmentSource trivialExt ⟨none, none⟩ ((field.NewPath "spec").Child "source")
      = [field.Required ((field.NewPath "spec").Child "source")
          "must specify persistentVolumeName when CSIMigration feature is disabled"]
    ∧ validateVolumeAttachmentSource trivialExt ⟨some ⟨0⟩, some "pv"⟩
        ((field.NewPath "spec").Child "source")
      = [field.Forbidden ((field.NewPath "spec").Child "source")
          "must specify exactly one of inlineVolumeSpec and persistentVolumeName"] := by
  have hpv : ∀ sp s b q, ErrsUnder (trivialExt.validatePersistentVolumeSpec sp s b q) q :=
    fun _ _ _ _ => errsUnder_nil _
  constructor
  · have h := (c6_volume_attachment_source_exactly_one trivialExt ⟨none, none⟩
      ((field.NewPath "spec").Child "source") hpv).1 rfl rfl
    simpa using h
  · exact (c6_volume_attachment_source_exactly_one trivialExt ⟨some ⟨0⟩, some "pv"⟩
      ((field.NewPath "spec").Child "source") hpv).2.1 (by decide) (by decide)

/-! C7: the CSINodeUpdate immutability check compares exactly the
same-name pairs. -/

lemma csiNodeUpdateInner_eq_filterMap (od : CSINodeDriver) (news : List CSINodeDriver) :
    csiNodeUpdateInner od news = news.filterMap (fun nd =>
      if od.name = nd.name ∧ ¬ od = nd then
        some (field.Invalid (field.NewPath "CSINodeDriver") (BadVal.driver nd) "field is immutable")
      else none) := by
  induction news with
  | nil => rfl
  | cons nd rest ih =>
    by_cases h1 : od.name = nd.name
    · by_cases h2 : od = nd
      · subst h2
        simp [csiNodeUpdateInner, ih]
      · simp [csiNodeUpdateInner, h1, h2, ih]
    · simp [csiNodeUpdateInner, h1, ih]

lemma csiNodeUpdateInner_length (od : CSINodeDriver) (news : List CSINodeDriver) :
    (csiNodeUpdateInner od news).length
      = news.countP (fun nd => decide (od.name = nd.name ∧ ¬ od = nd)) := by
  induction news with
  | nil => rfl
  | cons nd rest ih =>
    by_cases h1 : od.name = nd.name
    · by_cases h2 : od = nd
      · subst h2
        simp [csiNodeUpdateInner, List.countP_cons, ih]
      · simp [csiNodeUpdateInner, h1, h2, List.countP_cons, ih]
    · simp [csiNodeUpdateInner, h1, List.countP_cons, ih]

lemma csiNodeUpdateOuter_eq_flatMap (olds news : List CSINodeDriver) :
    csiNodeUpdateOuter olds news = olds.flatMap (fun od =>
      news.filterMap (fun nd =>
        if od.name = nd.name ∧ ¬ od = nd then
          some (field.Invalid (field.NewPath "CSINodeDriver") (BadVal.driver nd)
            "field is immutable")
        else none)) := by
  induction olds with
  | nil => rfl
  | cons od rest ih =>
    simp [csiNodeUpdateOuter, csiNodeUpdateInner_eq_filterMap, ih]

lemma csiNodeUpdateOuter_length (olds news : List CSINodeDriver) :
    (csiNodeUpdateOuter olds news).length
      = (olds.product news).countP (fun x => decide (x.1.name = x.2.name ∧ ¬ x.1 = x.2)) := by
  induction olds with
  | nil => rfl
  | cons od rest ih =>
    rw [show (od :: rest).product news = news.map (fun b => (od, b)) ++ rest.product news by
          simp [List.product, List.flatMap_cons]]
    rw [List.countP_append, List.countP_map]
    show (csiNodeUpdateInner od news ++ csiNodeUpdateOuter rest news).length = _
    rw [List.length_append, csiNodeUpdateInner_length, ih]
    rfl

/-- C7: ValidateCSINodeUpdate equals create validation of the new object
followed by exactly the pairwise immutability errors: one Invalid error
tagged "field is immutable" per (old driver, new driver) pair sharing a
name and differing structurally; the error count equals the number of
such pairs, and a new driver whose name appears in no old driver
contributes no immutability error (symmetrically, old-only drivers are
in no pair). -/
theorem c7_csinode_update_immutability_pairs (ext : Externals)
    (opts : CSINodeValidationOptions) (new old : CSINode) :
    ValidateCSINodeUpdate ext new old opts
      = ValidateCSINode ext new opts
        ++ old.spec.drivers.flatMap (fun od =>
            new.spec.drivers.filterMap (fun nd =>
              if od.name = nd.name ∧ ¬ od = nd then
                some (field.Invalid (field.NewPath "CSINodeDriver") (BadVal.driver nd)
                  "field is immutable")
              else none))
    ∧ (csiNodeUpdateOuter old.spec.drivers new.spec.drivers).length
        = (old.spec.drivers.product new.spec.drivers).countP
            (fun x => decide (x.1.name = x.2.name ∧ ¬ x.1 = x.2))
    ∧ (∀ nd ∈ new.spec.drivers, (∀ od ∈ old.spec.drivers, od.name ≠ nd.name) →
        field.Invalid (field.NewPath "CSINodeDriver") (BadVal.driver nd) "field is immutable"
          ∉ csiNodeUpdateOuter old.spec.drivers new.spec.drivers) := by
  refine ⟨?_, csiNodeUpdateOuter_length _ _, ?_⟩
  · simp [ValidateCSINodeUpdate, csiNodeUpdateOuter_eq_flatMap]
  · intro nd hnd hnone hmem
    rw [csiNodeUpdateOuter_eq_flatMap, List.mem_flatMap] at hmem
    obtain ⟨od, hod, hmem2⟩ := hmem
    rw [List.mem_filterMap] at hmem2
    obtain ⟨nd2, _, hf⟩ := hmem2
    by_cases hc : od.name = nd2.name ∧ ¬ od = nd2
    · rw [if_pos hc] at hf
      have heq : nd2 = nd := by
        have h2 := Option.some.inj hf
        simpa [field.Invalid, FieldError.mk.injEq, BadVal.driver.injEq] using h2
      exact hnone od hod (heq ▸ hc.1)
    · rw [if_neg hc] at hf
      exact Option.noConfusion hf

/-- Driver present only in the new spec. -/
def driverNewOnly : CSINodeDriver := ⟨"io.new-only", "nid-a", [], none⟩

/-- Driver present only in the old spec. -/
def driverOldOnly : CSINodeDriver := ⟨"io.old-only", "nid-b", [], none⟩

/-- Witness for C7: a new-only driver contributes no immutability error
on an explicit update pair. -/
theorem c7_witness :
    field.Invalid (field.NewPath "CSINodeDriver") (BadVal.driver driverNewOnly)
        "field is immutable"
      ∉ csiNodeUpdateOuter [driverOldOnly] [driverNewOnly] :=
  (c7_csinode_update_immutability_pairs trivialExt ⟨false⟩
      ⟨⟨"node-1"⟩, ⟨[driverNewOnly]⟩⟩ ⟨⟨"node-1"⟩, ⟨[driverOldOnly]⟩⟩).2.2
    driverNewOnly (List.mem_singleton.mpr rfl)
    (by
      intro od hod
      rw [List.mem_singleton.mp hod]
      decide)

/-! C9: duplicate audiences skip the expiration checks. -/

lemma range_flatMap_succ {α : Type} (n : Nat) (f : Nat → List α) :
    (List.range (n + 1)).flatMap f = f 0 ++ (List.range n).flatMap (fun k => f (k + 1)) := by
  rw [List.range_succ_eq_map, List.flatMap_cons, List.flatMap_map]

lemma mem_insertName {s : List String} {a x : String} :
    x ∈ insertName s a ↔ x ∈ s ∨ x = a := by
  unfold insertName
  by_cases h : s.contains a
  · have hmem : a ∈ s := by simpa using h
    rw [if_pos h]
    constructor
    · exact Or.inl
    · rintro (hx | rfl)
      · exact hx
      · exact hmem
  · rw [if_neg h]
    simp

/-- The per-entry content of validateTokenRequests, with the running
audience set made explicit: entry k is a Duplicate when its audience is
in `auds` or among the audiences of the earlier entries, and otherwise
gets its expiration bounds checked. -/
lemma tokenRequestsLoop_eq (p : Path) (trs : List TokenRequest) :
    ∀ (i : Nat) (auds : List String),
      tokenRequestsLoop trs i auds p
        = (List.range trs.length).flatMap (fun k =>
            match trs[k]? with
            | none => []
            | some tr =>
              if tr.audience ∈ auds
                  ∨ tr.audience ∈ (trs.take k).map TokenRequest.audience then
                [field.Duplicate ((p.Index (i + k)).Child "audience") (BadVal.str tr.audience)]
              else
                match tr.expirationSeconds with
                | none => []
                | some v =>
                  (if v < 600 then
                     [field.Invalid ((p.Index (i + k)).Child "expirationSeconds") (BadVal.int v)
                       "may not specify a duration less than 10 minutes"]
                   else [])
                    ++ (if v > 4294967296 then
                          [field.Invalid ((p.Index (i + k)).Child "expirationSeconds")
                            (BadVal.int v)
                            "may not specify a duration larger than 2^32 seconds"]
                        else [])) := by
  induction trs with
  | nil =>
    intro i auds
    rfl
  | cons tr rest ih =>
    intro i auds
    rw [List.length_cons, range_flatMap_succ]
    simp only [List.getElem?_cons_zero, List.getElem?_cons_succ, List.take_zero,
      List.take_succ_cons, List.map_nil, List.map_cons, List.not_mem_nil, or_false,
      List.mem_cons, Nat.add_zero]
    by_cases hmem : tr.audience ∈ auds
    · have hb : auds.contains tr.audience = true := by simpa using hmem
      show tokenRequestsLoop (tr :: rest) i auds p = _
      rw [show tokenRequestsLoop (tr :: rest) i auds p
            = (if auds.contains tr.audience then
                field.Duplicate (((p.Index i).Child "audience")) (BadVal.str tr.audience)
                  :: tokenRequestsLoop rest (i + 1) auds p
              else _) from rfl]
      rw [hb]
      simp only [if_true, if_pos hmem]
      show _ :: tokenRequestsLoop rest (i + 1) auds p = _
      rw [ih (i + 1) auds]
      rw [show ([field.Duplicate ((p.Index i).Child "audience") (BadVal.str tr.audience)] : Errs)
            ++ _ = _ from rfl]
      congr 1
      apply congrArg
      funext k
      cases hk : rest[k]? with
      | none => rfl
      | some tr2 =>
        have hidx : i + (k + 1) = (i + 1) + k := by omega
        have hiff : (tr2.audience ∈ auds ∨ (tr2.audience = tr.audience
              ∨ tr2.audience ∈ (rest.take k).map TokenRequest.audience))
            ↔ (tr2.audience ∈ auds ∨ tr2.audience ∈ (rest.take k).map TokenRequest.audience) := by
          constructor
          · rintro (h | h | h)
            · exact Or.inl h
            · exact Or.inl (h ▸ hmem)
            · exact Or.inr h
          · rintro (h | h)
            · exact Or.inl h
            · exact Or.inr (Or.inr h)
        dsimp only
        rw [hidx]
        exact if_congr hiff.symm rfl rfl
    · have hb : auds.contains tr.audience = false := by simpa using hmem
      show tokenRequestsLoop (tr :: rest) i auds p = _
      rw [show tokenRequestsLoop (tr :: rest) i auds p
            = (if auds.contains tr.audience then
                field.Duplicate (((p.Index i).Child "audience")) (BadVal.str tr.audience)
                  :: tokenRequestsLoop rest (i + 1) auds p
              else
                (match tr.expirationSeconds with
                 | none => []
                 | some v =>
                   (if v < 600 then
                      [field.Invalid ((p.Index i).Child "expirationSeconds") (BadVal.int v)
                        "may not specify a duration less than 10 minutes"]
                    else [])
                     ++ (if v > 4294967296 then
                           [field.Invalid ((p.Index i).Child "expirationSeconds") (BadVal.int v)
                             "may not specify a duration larger than 2^32 seconds"]
                         else []))
                  ++ tokenRequestsLoop rest (i + 1) (insertName auds tr.audience) p) from rfl]
      rw [hb]
      simp only [Bool.false_eq_true, if_false, if_neg hmem]
      rw [ih (i + 1) (insertName auds tr.audience)]
      congr 1
      apply congrArg
      funext k
      cases hk : rest[k]? with
      | none => rfl
      | some tr2 =>
        have hidx : i + (k + 1) = (i + 1) + k := by omega
        have hiff : (tr2.audience ∈ auds ∨ (tr2.audience = tr.audience
              ∨ tr2.audience ∈ (rest.take k).map TokenRequest.audience))
            ↔ (tr2.audience ∈ insertName auds tr.audience
                ∨ tr2.audience ∈ (rest.take k).map TokenRequest.audience) := by
          rw [mem_insertName]
          tauto
        dsimp only
        rw [hidx]
        exact if_congr hiff.symm rfl rfl

/-- C9: in validateTokenRequests, an entry whose audience equals that of
an earlier entry yields exactly one Duplicate error at that entry's
audience path and is otherwise skipped (its ExpirationSeconds bounds are
not checked at all); the 600-second lower and 2^32-second upper bounds
are checked exactly for entries with a first-occurrence audience and a
non-nil ExpirationSeconds.  This equation exhibits the per-entry
behavior in full. -/
theorem c9_token_requests_duplicate_audience_skips_expiration
    (tokenRequests : List TokenRequest) (fldPath : Path) :
    validateTokenRequests tokenRequests fldPath
      = (List.range tokenRequests.length).flatMap (fun k =>
          match tokenRequests[k]? with
          | none => []
          | some tr =>
            if tr.audience ∈ (tokenRequests.take k).map TokenRequest.audience then
              [field.Duplicate ((fldPath.Index k).Child "audience") (BadVal.str tr.audience)]
            else
              match tr.expirationSeconds with
              | none => []
              | some v =>
                (if v < 600 then
                   [field.Invalid ((fldPath.Index k).Child "expirationSeconds") (BadVal.int v)
                     "may not specify a duration less than 10 minutes"]
                 else [])
                  ++ (if v > 4294967296 then
                        [field.Invalid ((fldPath.Index k).Child "expirationSeconds")
                          (BadVal.int v)
                          "may not specify a duration larger than 2^32 seconds"]
                      else [])) := by
  rw [validateTokenRequests, tokenRequestsLoop_eq fldPath tokenRequests 0 []]
  apply congrArg
  funext k
  cases hk : tokenRequests[k]? with
  | none => rfl
  | some tr =>
    dsimp only
    simp only [List.not_mem_nil, false_or, Nat.zero_add]

/-! C2: duplicate detection in the two unordered nested collections. -/

lemma filterMap_dup_replicate_none {e : ExprMap} {c : FieldError} (n : Nat) :
    (List.replicate n (none : Option ExprMap)).filterMap
      (fun t => if t = some e then some c else none) = [] := by
  induction n with
  | zero => rfl
  | succ m ih => simp [List.replicate_succ, List.filterMap_cons, ih]

lemma filterMap_dup_replicate_some {e : ExprMap} {c : FieldError} (m : Nat) :
    (List.replicate m (some e)).filterMap (fun t => if t = some e then some c else none)
      = List.replicate m c := by
  induction m with
  | zero => rfl
  | succ k ih => simp [List.replicate_succ, List.filterMap_cons, ih]

/-- The topology loop on k identical terms, starting from nz nil
placeholders and m retained copies of the term's expression map,
reports m + j Duplicate errors at the j-th processed term. -/
lemma allowedTopologiesLoop_replicate (ext : Externals) (term : TopologySelectorTerm) (p : Path)
    (hmap : ∀ q r, (ext.validateTopologySelectorTerm term q).1
                 = (ext.validateTopologySelectorTerm term r).1) (nz : Nat) :
    ∀ (k i m : Nat),
      allowedTopologiesLoop ext (List.replicate k term) i
          (List.replicate nz (none : Option ExprMap)
            ++ List.replicate m (some (ext.validateTopologySelectorTerm term (p.Index 0)).1)) p
        = (List.range k).flatMap (fun j =>
            (ext.validateTopologySelectorTerm term (p.Index (i + j))).2
              ++ List.replicate (m + j)
                  (field.Duplicate ((p.Index (i + j)).Child "matchLabelExpressions")
                    (BadVal.str ""))) := by
  intro k
  induction k with
  | zero =>
    intro i m
    rfl
  | succ k ih =>
    intro i m
    rw [List.replicate_succ]
    dsimp only [allowedTopologiesLoop]
    rw [hmap (p.Index i) (p.Index 0)]
    rw [List.filterMap_append, filterMap_dup_replicate_none, filterMap_dup_replicate_some,
      List.nil_append]
    have hra : (List.replicate nz (none : Option ExprMap)
          ++ List.replicate m (some (ext.validateTopologySelectorTerm term (p.Index 0)).1))
          ++ [some (ext.validateTopologySelectorTerm term (p.Index 0)).1]
        = List.replicate nz (none : Option ExprMap)
          ++ List.replicate (m + 1) (some (ext.validateTopologySelectorTerm term (p.Index 0)).1) := by
      rw [List.append_assoc, ← List.replicate_succ']
    rw [hra, ih (i + 1) (m + 1), range_flatMap_succ]
    simp only [Nat.add_zero]
    congr 1
    apply congrArg
    funext j
    have h1 : i + (j + 1) = (i + 1) + j := by omega
    have h2 : m + (j + 1) = (m + 1) + j := by omega
    rw [h1, h2]

/-- The driver loop on k copies of the same driver, with the driver name
already in the seen set, flags every copy as a Duplicate. -/
lemma csiNodeDriversLoop_replicate_dup (ext : Externals) (opts : CSINodeValidationOptions)
    (d : CSINodeDriver) (p : Path) :
    ∀ (k i : Nat) (seen : List String), d.name ∈ seen →
      csiNodeDriversLoop ext opts (List.replicate k d) i seen p
        = (List.range k).flatMap (fun j =>
            ext.validateCSIDriverName d.name ((p.Index (i + j)).Child "name")
              ++ validateCSINodeDriverNodeID d.nodeID ((p.Index (i + j)).Child "nodeID") opts
              ++ validateCSINodeDriverAllocatable ext d.allocatable
                  ((p.Index (i + j)).Child "allocatable")
              ++ [field.Duplicate ((p.Index (i + j)).Child "name") (BadVal.str d.name)]
              ++ topoKeysLoop ext d.topologyKeys [] (p.Index (i + j))) := by
  intro k
  induction k with
  | zero =>
    intro i seen h
    rfl
  | succ k ih =>
    intro i seen h
    rw [List.replicate_succ]
    dsimp only [csiNodeDriversLoop, validateCSINodeDriver]
    have hb : seen.contains d.name = true := by simpa using h
    rw [hb]
    simp only [if_true]
    rw [ih (i + 1) (insertName seen d.name) (mem_insertName.mpr (Or.inl h))]
    rw [range_flatMap_succ]
    simp only [Nat.add_zero]
    simp only [List.append_assoc]
    congr 5
    apply congrArg
    funext j
    have h1 : i + (j + 1) = (i + 1) + j := by omega
    rw [h1]

/-- Counterexample for C2: three identical allowedTopologies terms yield
three Duplicate errors, not N − 1 = 2: the comparison slice retains
already-reported duplicates, so the j-th occurrence is flagged j times. -/
theorem c2_counterexample_three_identical_topologies :
    (validateAllowedTopologies trivialExt (List.replicate 3 termA)
        (field.NewPath "allowedTopologies")).countP
      (fun e => e.kind == ErrorType.duplicate) = 3
    ∧ ¬ ((validateAllowedTopologies trivialExt (List.replicate 3 termA)
          (field.NewPath "allowedTopologies")).countP
        (fun e => e.kind == ErrorType.duplicate) = 3 - 1) := by
  exact ⟨by decide, by decide⟩

/-- C2 (amended): for N entries sharing one key, the CSINodeDriver case
reports exactly N − 1 Duplicate errors — one at the name path of every
second-or-later occurrence and none at the first — but the
allowedTopologies case reports j Duplicate errors at the j-th occurrence
(0-based), N(N−1)/2 in total, because the comparison slice retains
entries already reported as duplicates.  Both per-entry expansions are
exhibited; the hypothesis states that the external term validator
derives its raw expression map from the term alone (as the Go function
does). -/
theorem c2_duplicate_errors_per_occurrence (ext : Externals) (term : TopologySelectorTerm)
    (d : CSINodeDriver) (p : Path) (opts : CSINodeValidationOptions) (n : Nat)
    (hmap : ∀ q r, (ext.validateTopologySelectorTerm term q).1
                 = (ext.validateTopologySelectorTerm term r).1) :
    validateAllowedTopologies ext (List.replicate n term) p
      = (List.range n).flatMap (fun j =>
          (ext.validateTopologySelectorTerm term (p.Index j)).2
            ++ List.replicate j
                (field.Duplicate ((p.Index j).Child "matchLabelExpressions") (BadVal.str "")))
    ∧ validateCSINodeDrivers ext (List.replicate n d) p opts
      = (List.range n).flatMap (fun j =>
          ext.validateCSIDriverName d.name ((p.Index j).Child "name")
            ++ validateCSINodeDriverNodeID d.nodeID ((p.Index j).Child "nodeID") opts
            ++ validateCSINodeDriverAllocatable ext d.allocatable ((p.Index j).Child "allocatable")
            ++ (if j = 0 then []
                else [field.Duplicate ((p.Index j).Child "name") (BadVal.str d.name)])
            ++ topoKeysLoop ext d.topologyKeys [] (p.Index j)) := by
  constructor
  · match n with
    | 0 => rfl
    | Nat.succ k =>
      rw [validateAllowedTopologies]
      rw [if_neg (by simp)]
      have hraw : (List.replicate (List.replicate (k + 1) term).length (none : Option ExprMap))
          = List.replicate (k + 1) (none : Option ExprMap)
            ++ List.replicate 0 (some (ext.validateTopologySelectorTerm term (p.Index 0)).1) := by
        simp
      rw [hraw, allowedTopologiesLoop_replicate ext term p hmap (k + 1) (k + 1) 0 0]
      apply congrArg
      funext j
      simp only [Nat.zero_add]
  · match n with
    | 0 => rfl
    | Nat.succ k =>
      rw [validateCSINodeDrivers, List.replicate_succ]
      dsimp only [csiNodeDriversLoop, validateCSINodeDriver]
      have hb : (List.nil : List String).contains d.name = false := rfl
      rw [hb]
      simp only [Bool.false_eq_true, if_false]
      rw [csiNodeDriversLoop_replicate_dup ext opts d p k 1 (insertName [] d.name)
        (mem_insertName.mpr (Or.inr rfl))]
      rw [range_flatMap_succ]
      simp only [eq_self_iff_true, if_true, List.append_nil, List.nil_append]
      congr 1
      apply congrArg
      funext j
      have h1 : (1 : Nat) + j = j + 1 := by omega
      rw [h1]
      simp only [Nat.succ_ne_zero, if_false]

/-- Witness for C2: the amended theorem applied to trivialExt, a
concrete term and a concrete driver at N = 2 (where both collections
indeed give exactly one Duplicate). -/
theorem c2_witness :
    validateAllowedTopologies trivialExt (List.replicate 2 termA)
        (field.NewPath "allowedTopologies")
      = (List.range 2).flatMap (fun j =>
          (trivialExt.validateTopologySelectorTerm termA
            ((field.NewPath "allowedTopologies").Index j)).2
            ++ List.replicate j
                (field.Duplicate (((field.NewPath "allowedTopologies").Index j).Child
                  "matchLabelExpressions") (BadVal.str "")))
    ∧ validateCSINodeDrivers trivialExt (List.replicate 2 driverNewOnly)
        (field.NewPath "drivers") ⟨false⟩
      = (List.range 2).flatMap (fun j =>
          trivialExt.validateCSIDriverName driverNewOnly.name
              (((field.NewPath "drivers").Index j).Child "name")
            ++ validateCSINodeDriverNodeID driverNewOnly.nodeID
                (((field.NewPath "drivers").Index j).Child "nodeID") ⟨false⟩
            ++ validateCSINodeDriverAllocatable trivialExt driverNewOnly.allocatable
                (((field.NewPath "drivers").Index j).Child "allocatable")
            ++ (if j = 0 then []
                else [field.Duplicate (((field.NewPath "drivers").Index j).Child "name")
                  (BadVal.str driverNewOnly.name)])
            ++ topoKeysLoop trivialExt driverNewOnly.topologyKeys []
                ((field.NewPath "drivers").Index j)) :=
  ⟨(c2_duplicate_errors_per_occurrence trivialExt termA driverNewOnly
      (field.NewPath "allowedTopologies") ⟨false⟩ 2 (fun _ _ => rfl)).1,
   (c2_duplicate_errors_per_occurrence trivialExt termA driverNewOnly
      (field.NewPath "drivers") ⟨false⟩ 2 (fun _ _ => rfl)).2⟩

/-! C8: every surfaced error carries a non-empty path. -/

/-- Every error of `es` has a non-empty path. -/
def NoEmptyPath (es : Errs) : Prop := ∀ e ∈ es, e.path ≠ []

/-- Path-locality of the external collaborators: each external validator
keeps its errors at or below the path it is handed.  (The upstream
implementations all do; this is the only fact about them the non-empty
path invariant needs.) -/
structure ExtUnder (ext : Externals) : Prop where
  objectMeta : ∀ m b f p, ErrsUnder (ext.validateObjectMeta m b f p) p
  objectMetaUpdate : ∀ m m2 p, ErrsUnder (ext.validateObjectMetaUpdate m m2 p) p
  qualifiedName : ∀ s p, ErrsUnder (ext.validateQualifiedName s p) p
  csiDriverName : ∀ s p, ErrsUnder (ext.validateCSIDriverName s p) p
  persistentVolumeSpec : ∀ sp s b p, ErrsUnder (ext.validatePersistentVolumeSpec sp s b p) p
  topologySelectorTerm : ∀ t p, ErrsUnder (ext.validateTopologySelectorTerm t p).2 p
  nonnegativeField : ∀ n p, ErrsUnder (ext.validateNonnegativeField n p) p
  labelSelector : ∀ s p, ErrsUnder (ext.validateLabelSelector s p) p
  nonnegativeQuantity : ∀ q p, ErrsUnder (ext.validateNonnegativeQuantity q p) p

lemma trivialExt_under : ExtUnder trivialExt :=
  ⟨fun _ _ _ _ => errsUnder_nil _, fun _ _ _ => errsUnder_nil _, fun _ _ => errsUnder_nil _,
   fun _ _ => errsUnder_nil _, fun _ _ _ _ => errsUnder_nil _, fun _ _ => errsUnder_nil _,
   fun _ _ => errsUnder_nil _, fun _ _ => errsUnder_nil _, fun _ _ => errsUnder_nil _⟩

lemma errsUnder_cons {e : FieldError} {es : Errs} {p : Path}
    (he : ∃ r, e.path = p ++ r) (hes : ErrsUnder es p) : ErrsUnder (e :: es) p := by
  intro x hx
  rcases List.mem_cons.mp hx with h | h
  · exact h ▸ he
  · exact hes x h

lemma errsUnder_filterMap_at {α : Type} {l : List α} {p : Path} {f : α → Option FieldError}
    (hf : ∀ a e, f a = some e → ∃ r, e.path = p ++ r) : ErrsUnder (l.filterMap f) p := by
  intro e he
  rw [List.mem_filterMap] at he
  obtain ⟨a, _, hfa⟩ := he
  exact hf a e hfa

lemma errsUnder_map_msgs {l : List String} {p : Path} {mk : String → FieldError}
    (hmk : ∀ m, ∃ r, (mk m).path = p ++ r) : ErrsUnder (l.map mk) p := by
  intro e he
  rw [List.mem_map] at he
  obtain ⟨m, _, hm⟩ := he
  exact hm ▸ hmk m

lemma under_validateProvisioner (ext : Externals) (h : ExtUnder ext) (s : String) (p : Path) :
    ErrsUnder (validateProvisioner ext s p) p := by
  unfold validateProvisioner
  apply errsUnder_append
  · exact errsUnder_if (errsUnder_self rfl) (errsUnder_nil _)
  · exact errsUnder_if (h.qualifiedName _ _) (errsUnder_nil _)

lemma under_validateParameters (params : List (String × String)) (p : Path) :
    ErrsUnder (validateParameters params p) p := by
  unfold validateParameters
  apply errsUnder_if
  · exact errsUnder_self rfl
  · apply errsUnder_append
    · exact errsUnder_filterMap_at (fun kv e hf => by
        by_cases hc : goLen kv.1 < 1
        · rw [if_pos hc] at hf
          exact ⟨[], by rw [← Option.some.inj hf]; simp [field.Invalid]⟩
        · rw [if_neg hc] at hf
          exact Option.noConfusion hf)
    · exact errsUnder_if (errsUnder_self rfl) (errsUnder_nil _)

lemma under_validateReclaimPolicy {rp : Option String} {p : Path} {es : Errs}
    (h : validateReclaimPolicy rp p = some es) : ErrsUnder es p := by
  match rp with
  | none => exact Option.noConfusion h
  | some v =>
    have hb := Option.some.inj h
    rw [← hb]
    exact errsUnder_if (errsUnder_if (errsUnder_nil _) (errsUnder_self rfl)) (errsUnder_nil _)

lemma under_validateVolumeBindingMode (mode : Option String) (p : Path) :
    ErrsUnder (validateVolumeBindingMode mode p) p := by
  unfold validateVolumeBindingMode
  match mode with
  | none => exact errsUnder_self rfl
  | some m => exact errsUnder_if (errsUnder_nil _) (errsUnder_self rfl)

lemma under_allowedTopologiesLoop (ext : Externals) (h : ExtUnder ext) (p : Path) :
    ∀ (ts : List TopologySelectorTerm) (i : Nat) (raw : List (Option ExprMap)),
      ErrsUnder (allowedTopologiesLoop ext ts i raw p) p := by
  intro ts
  induction ts with
  | nil =>
    intro i raw
    exact errsUnder_nil _
  | cons term rest ih =>
    intro i raw
    dsimp only [allowedTopologiesLoop]
    apply errsUnder_append
    apply errsUnder_append
    · exact errsUnder_drop (p := p) (q := [Seg.idx i]) (h.topologySelectorTerm _ _)
    · exact errsUnder_filterMap_at (fun t e hf => by
        by_cases hc : t = some (ext.validateTopologySelectorTerm term (p.Index i)).1
        · rw [if_pos hc] at hf
          exact ⟨[Seg.idx i, Seg.field "matchLabelExpressions"],
            by rw [← Option.some.inj hf]; simp [field.Duplicate, Path.Index, Path.Child]⟩
        · rw [if_neg hc] at hf
          exact Option.noConfusion hf)
    · exact ih (i + 1) _

lemma under_validateAllowedTopologies (ext : Externals) (h : ExtUnder ext)
    (ts : List TopologySelectorTerm) (p : Path) :
    ErrsUnder (validateAllowedTopologies ext ts p) p := by
  unfold validateAllowedTopologies
  exact errsUnder_if (errsUnder_nil _) (under_allowedTopologiesLoop ext h p ts 0 _)

lemma under_validateAttacher (s : String) (p : Path) : ErrsUnder (validateAttacher s p) p := by
  unfold validateAttacher
  exact errsUnder_if (errsUnder_self rfl) (errsUnder_nil _)

lemma under_validateVolumeAttachmentSource (ext : Externals) (h : ExtUnder ext)
    (source : VolumeAttachmentSource) (p : Path) :
    ErrsUnder (validateVolumeAttachmentSource ext source p) p := by
  unfold validateVolumeAttachmentSource
  match source.inlineVolumeSpec, source.persistentVolumeName with
  | none, none => exact errsUnder_if (errsUnder_self rfl) (errsUnder_self rfl)
  | some _, some _ => exact errsUnder_self rfl
  | none, some pvName =>
    apply errsUnder_if
    · exact errsUnder_single ⟨[Seg.field "persistentVolumeName"],
        by simp [field.Required, Path.Child]⟩
    · exact errsUnder_nil _
  | some sp, none =>
    exact errsUnder_drop (p := p) (q := [Seg.field "inlineVolumeSpec"])
      (h.persistentVolumeSpec _ _ _ _)

lemma under_validateNodeName (ext : Externals) (s : String) (p : Path) :
    ErrsUnder (validateNodeName ext s p) p := by
  unfold validateNodeName
  exact errsUnder_map_msgs (fun m => ⟨[], by simp [field.Invalid]⟩)

lemma under_validateVolumeAttachmentSpec (ext : Externals) (h : ExtUnder ext)
    (spec : VolumeAttachmentSpec) (p : Path) :
    ErrsUnder (validateVolumeAttachmentSpec ext spec p) p := by
  unfold validateVolumeAttachmentSpec
  apply errsUnder_append
  apply errsUnder_append
  · exact errsUnder_child (under_validateAttacher _ _)
  · exact errsUnder_child (under_validateVolumeAttachmentSource ext h _ _)
  · exact errsUnder_child (under_validateNodeName ext _ _)

lemma under_validateAttachmentMetadata (m : List (String × String)) (p : Path) :
    ErrsUnder (validateAttachmentMetadata m p) p := by
  unfold validateAttachmentMetadata
  exact errsUnder_if (errsUnder_self rfl) (errsUnder_nil _)

lemma under_validateVolumeError (e : Option VolumeError) (p : Path) :
    ErrsUnder (validateVolumeError e p) p := by
  unfold validateVolumeError
  match e with
  | none => exact errsUnder_nil _
  | some err =>
    apply errsUnder_if
    · exact errsUnder_single ⟨[Seg.field "message"], by simp [field.TooLong, Path.Child]⟩
    · exact errsUnder_nil _

lemma under_validateVolumeAttachmentStatus (status : VolumeAttachmentStatus) (p : Path) :
    ErrsUnder (validateVolumeAttachmentStatus status p) p := by
  unfold validateVolumeAttachmentStatus
  apply errsUnder_append
  apply errsUnder_append
  · exact errsUnder_child (under_validateAttachmentMetadata _ _)
  · exact errsUnder_child (under_validateVolumeError _ _)
  · exact errsUnder_child (under_validateVolumeError _ _)

lemma under_validateCSINodeDriverNodeID (s : String) (p : Path)
    (opts : CSINodeValidationOptions) :
    ErrsUnder (validateCSINodeDriverNodeID s p opts) p := by
  unfold validateCSINodeDriverNodeID
  apply errsUnder_append
  · exact errsUnder_if (errsUnder_self rfl) (errsUnder_nil _)
  · exact errsUnder_if (errsUnder_self rfl) (errsUnder_nil _)

lemma under_validateCSINodeDriverAllocatable (ext : Externals) (h : ExtUnder ext)
    (a : Option VolumeNodeResources) (p : Path) :
    ErrsUnder (validateCSINodeDriverAllocatable ext a p) p := by
  unfold validateCSINodeDriverAllocatable
  match a with
  | none => exact errsUnder_nil _
  | some res =>
    show ErrsUnder (match res.count with
      | none => []
      | some c => ext.validateNonnegativeField c (p.Child "count")) p
    match res.count with
    | none => exact errsUnder_nil _
    | some c => exact errsUnder_drop (p := p) (q := [Seg.field "count"]) (h.nonnegativeField _ _)

lemma under_topoKeysLoop (ext : Externals) (h : ExtUnder ext) (p : Path) :
    ∀ (keys : List String) (seen : List String), ErrsUnder (topoKeysLoop ext keys seen p) p := by
  intro keys
  induction keys with
  | nil =>
    intro seen
    exact errsUnder_nil _
  | cons key rest ih =>
    intro seen
    dsimp only [topoKeysLoop]
    apply errsUnder_append
    apply errsUnder_append
    apply errsUnder_append
    · exact errsUnder_if (errsUnder_self rfl) (errsUnder_nil _)
    · exact errsUnder_if (errsUnder_self rfl) (errsUnder_nil _)
    · exact h.qualifiedName _ _
    · exact ih _

lemma under_validateCSINodeDriver (ext : Externals) (h : ExtUnder ext) (d : CSINodeDriver)
    (seen : List String) (p : Path) (opts : CSINodeValidationOptions) :
    ErrsUnder (validateCSINodeDriver ext d seen p opts).1 p := by
  dsimp only [validateCSINodeDriver]
  apply errsUnder_append
  apply errsUnder_append
  apply errsUnder_append
  apply errsUnder_append
  · exact errsUnder_child (h.csiDriverName _ _)
  · exact errsUnder_child (under_validateCSINodeDriverNodeID _ _ _)
  · exact errsUnder_child (under_validateCSINodeDriverAllocatable ext h _ _)
  · exact errsUnder_if
      (errsUnder_single ⟨[Seg.field "name"], by simp [field.Duplicate, Path.Child]⟩)
      (errsUnder_nil _)
  · exact under_topoKeysLoop ext h _ _ _

lemma under_csiNodeDriversLoop (ext : Externals) (h : ExtUnder ext) (p : Path)
    (opts : CSINodeValidationOptions) :
    ∀ (ds : List CSINodeDriver) (i : Nat) (seen : List String),
      ErrsUnder (csiNodeDriversLoop ext opts ds i seen p) p := by
  intro ds
  induction ds with
  | nil =>
    intro i seen
    exact errsUnder_nil _
  | cons d rest ih =>
    intro i seen
    dsimp only [csiNodeDriversLoop]
    apply errsUnder_append
    · exact errsUnder_index (under_validateCSINodeDriver ext h d seen _ opts)
    · exact ih _ _

lemma under_validateCSINodeSpec (ext : Externals) (h : ExtUnder ext) (spec : CSINodeSpec)
    (p : Path) (opts : CSINodeValidationOptions) :
    ErrsUnder (validateCSINodeSpec ext spec p opts) p := by
  unfold validateCSINodeSpec validateCSINodeDrivers
  exact errsUnder_child (under_csiNodeDriversLoop ext h _ opts _ 0 [])

lemma under_validateAttachRequired (b : Option Bool) (p : Path) :
    ErrsUnder (validateAttachRequired b p) p := by
  unfold validateAttachRequired
  match b with
  | none => exact errsUnder_self rfl
  | some _ => exact errsUnder_nil _

lemma under_validatePodInfoOnMount (b : Option Bool) (p : Path) :
    ErrsUnder (validatePodInfoOnMount b p) p := by
  unfold validatePodInfoOnMount
  match b with
  | none => exact errsUnder_self rfl
  | some _ => exact errsUnder_nil _

lemma under_validateStorageCapacity (ext : Externals) (b : Option Bool) (p : Path) :
    ErrsUnder (validateStorageCapacity ext b p) p := by
  unfold validateStorageCapacity
  exact errsUnder_if (errsUnder_self rfl) (errsUnder_nil _)

lemma under_validateFSGroupPolicy (s : Option String) (p : Path) :
    ErrsUnder (validateFSGroupPolicy s p) p := by
  unfold validateFSGroupPolicy
  match s with
  | none => exact errsUnder_nil _
  | some v => exact errsUnder_if (errsUnder_nil _) (errsUnder_self rfl)

lemma under_tokenRequestsLoop (p : Path) :
    ∀ (trs : List TokenRequest) (i : Nat) (auds : List String),
      ErrsUnder (tokenRequestsLoop trs i auds p) p := by
  intro trs
  induction trs with
  | nil =>
    intro i auds
    exact errsUnder_nil _
  | cons tr rest ih =>
    intro i auds
    dsimp only [tokenRequestsLoop]
    apply errsUnder_if
    · apply errsUnder_cons
      · exact ⟨[Seg.idx i, Seg.field "audience"],
          by simp [field.Duplicate, Path.Index, Path.Child]⟩
      · exact ih _ _
    · apply errsUnder_append
      · match tr.expirationSeconds with
        | none => exact errsUnder_nil _
        | some v =>
          apply errsUnder_append
          · exact errsUnder_if (errsUnder_single ⟨[Seg.idx i, Seg.field "expirationSeconds"],
              by simp [field.Invalid, Path.Index, Path.Child]⟩) (errsUnder_nil _)
          · exact errsUnder_if (errsUnder_single ⟨[Seg.idx i, Seg.field "expirationSeconds"],
              by simp [field.Invalid, Path.Index, Path.Child]⟩) (errsUnder_nil _)
      · exact ih _ _

lemma under_validateTokenRequests (trs : List TokenRequest) (p : Path) :
    ErrsUnder (validateTokenRequests trs p) p :=
  under_tokenRequestsLoop p trs 0 []

lemma under_validateVolumeLifecycleModes (modes : List String) (p : Path) :
    ErrsUnder (validateVolumeLifecycleModes modes p) p := by
  unfold validateVolumeLifecycleModes
  intro e he
  rw [List.mem_flatMap] at he
  obtain ⟨m, _, hm⟩ := he
  by_cases hc : m = "Persistent" ∨ m = "Ephemeral"
  · rw [if_pos hc] at hm
    exact absurd hm (List.not_mem_nil e)
  · rw [if_neg hc] at hm
    rw [List.mem_singleton.mp hm]
    exact ⟨[], by simp [field.NotSupported]⟩

lemma under_validateCSIDriverSpec (ext : Externals) (spec : CSIDriverSpec)
    (p : Path) : ErrsUnder (validateCSIDriverSpec ext spec p) p := by
  unfold validateCSIDriverSpec
  apply errsUnder_append
  apply errsUnder_append
  apply errsUnder_append
  apply errsUnder_append
  apply errsUnder_append
  · exact errsUnder_child (under_validateAttachRequired _ _)
  · exact errsUnder_child (under_validatePodInfoOnMount _ _)
  · exact errsUnder_child (under_validateStorageCapacity ext _ _)
  · exact errsUnder_child (under_validateFSGroupPolicy _ _)
  · exact errsUnder_child (under_validateTokenRequests _ _)
  · exact errsUnder_child (under_validateVolumeLifecycleModes _ _)

lemma under_validateImmutableField {α : Type} [DecidableEq α] (newVal oldVal : α)
    (toBad : α → BadVal) (p : Path) :
    ErrsUnder (validateImmutableField newVal oldVal toBad p) p := by
  unfold validateImmutableField
  exact errsUnder_if (errsUnder_nil _) (errsUnder_self rfl)

lemma under_csiNodeUpdateOuter (olds news : List CSINodeDriver) :
    ErrsUnder (csiNodeUpdateOuter olds news) (field.NewPath "CSINodeDriver") := by
  rw [csiNodeUpdateOuter_eq_flatMap]
  intro e he
  rw [List.mem_flatMap] at he
  obtain ⟨od, _, he2⟩ := he
  rw [List.mem_filterMap] at he2
  obtain ⟨nd, _, hf⟩ := he2
  by_cases hc : od.name = nd.name ∧ ¬ od = nd
  · rw [if_pos hc] at hf
    exact ⟨[], by rw [← Option.some.inj hf]; simp [field.Invalid]⟩
  · rw [if_neg hc] at hf
    exact Option.noConfusion hf

lemma noEmpty_append {a b : Errs} (ha : NoEmptyPath a) (hb : NoEmptyPath b) :
    NoEmptyPath (a ++ b) := by
  intro e he
  rcases List.mem_append.mp he with h | h
  · exact ha e h
  · exact hb e h

lemma noEmpty_of_under {es : Errs} {s : String} (h : ErrsUnder es (field.NewPath s)) :
    NoEmptyPath es := by
  intro e he
  obtain ⟨r, hr⟩ := h e he
  simp [hr, field.NewPath]

lemma noEmpty_of_under_child {es : Errs} {s t : String}
    (h : ErrsUnder es ((field.NewPath s).Child t)) : NoEmptyPath es :=
  noEmpty_of_under (errsUnder_child h)

/-- C8: every error produced by any public entry point carries a
non-empty field path (all errors are rooted at a named top-level path
such as metadata, spec or parameters), given that the external
collaborators keep their errors at or below the paths they are handed. -/
theorem c8_all_errors_have_nonempty_paths (ext : Externals) (h : ExtUnder ext) :
    (∀ (sc : StorageClass) (es : Errs), ValidateStorageClass ext sc = some es → NoEmptyPath es)
    ∧ (∀ (sc osc : StorageClass) (es : Errs),
        ValidateStorageClassUpdate ext sc osc = some es → NoEmptyPath es)
    ∧ (∀ va : VolumeAttachment, NoEmptyPath (ValidateVolumeAttachment ext va))
    ∧ (∀ va : VolumeAttachment, NoEmptyPath (ValidateVolumeAttachmentV1 ext va))
    ∧ (∀ new old : VolumeAttachment, NoEmptyPath (ValidateVolumeAttachmentUpdate ext new old))
    ∧ (∀ (node : CSINode) (opts : CSINodeValidationOptions),
        NoEmptyPath (ValidateCSINode ext node opts))
    ∧ (∀ (new old : CSINode) (opts : CSINodeValidationOptions),
        NoEmptyPath (ValidateCSINodeUpdate ext new old opts))
    ∧ (∀ cd : CSIDriver, NoEmptyPath (ValidateCSIDriver ext cd))
    ∧ (∀ new old : CSIDriver, NoEmptyPath (ValidateCSIDriverUpdate ext new old))
    ∧ (∀ cap : CSIStorageCapacity, NoEmptyPath (ValidateCSIStorageCapacity ext cap))
    ∧ (∀ cap oldCap : CSIStorageCapacity,
        NoEmptyPath (ValidateCSIStorageCapacityUpdate ext cap oldCap)) := by
  have hva : ∀ va : VolumeAttachment, NoEmptyPath (ValidateVolumeAttachment ext va) := by
    intro va
    unfold ValidateVolumeAttachment
    apply noEmpty_append
    apply noEmpty_append
    · exact noEmpty_of_under (h.objectMeta _ _ _ _)
    · exact noEmpty_of_under (under_validateVolumeAttachmentSpec ext h _ _)
    · exact noEmpty_of_under (under_validateVolumeAttachmentStatus _ _)
  have hnode : ∀ (node : CSINode) (opts : CSINodeValidationOptions),
      NoEmptyPath (ValidateCSINode ext node opts) := by
    intro node opts
    unfold ValidateCSINode
    apply noEmpty_append
    · exact noEmpty_of_under (h.objectMeta _ _ _ _)
    · exact noEmpty_of_under (under_validateCSINodeSpec ext h _ _ opts)
  refine ⟨?_, ?_, hva, ?_, ?_, hnode, ?_, ?_, ?_, ?_, ?_⟩
  · intro sc es hes
    unfold ValidateStorageClass at hes
    match hrp : validateReclaimPolicy sc.reclaimPolicy (field.NewPath "reclaimPolicy") with
    | none =>
      rw [hrp] at hes
      exact Option.noConfusion hes
    | some reclaimErrs =>
      rw [hrp] at hes
      rw [← Option.some.inj hes]
      apply noEmpty_append
      apply noEmpty_append
      apply noEmpty_append
      apply noEmpty_append
      apply noEmpty_append
      · exact noEmpty_of_under (h.objectMeta _ _ _ _)
      · exact noEmpty_of_under (under_validateProvisioner ext h _ _)
      · exact noEmpty_of_under (under_validateParameters _ _)
      · exact noEmpty_of_under (under_validateReclaimPolicy hrp)
      · exact noEmpty_of_under (under_validateVolumeBindingMode _ _)
      · exact noEmpty_of_under (under_validateAllowedTopologies ext h _ _)
  · intro sc osc es hes
    unfold ValidateStorageClassUpdate at hes
    match hrp : sc.reclaimPolicy, hrpo : osc.reclaimPolicy with
    | none, _ =>
      rw [hrp] at hes
      exact Option.noConfusion hes
    | some rp, none =>
      rw [hrp, hrpo] at hes
      exact Option.noConfusion hes
    | some rp, some orp =>
      rw [hrp, hrpo] at hes
      rw [← Option.some.inj hes]
      apply noEmpty_append
      apply noEmpty_append
      apply noEmpty_append
      apply noEmpty_append
      · exact noEmpty_of_under (h.objectMetaUpdate _ _ _)
      · exact noEmpty_of_under (errsUnder_if (errsUnder_self rfl) (errsUnder_nil _))
      · exact noEmpty_of_under (errsUnder_if (errsUnder_self rfl) (errsUnder_nil _))
      · exact noEmpty_of_under (errsUnder_if (errsUnder_self rfl) (errsUnder_nil _))
      · exact noEmpty_of_under (under_validateImmutableField _ _ _ _)
  · intro va
    unfold ValidateVolumeAttachmentV1
    apply noEmpty_append
    · exact noEmpty_of_under (h.csiDriverName _ _)
    · match va.spec.source.persistentVolumeName with
      | some pvName =>
        exact noEmpty_of_under (s := "spec.source.persistentVolumeName")
          (errsUnder_map_msgs (fun m => ⟨[], by simp [field.Invalid]⟩))
      | none =>
        intro e he
        exact absurd he (List.not_mem_nil e)
  · intro new old
    unfold ValidateVolumeAttachmentUpdate
    apply noEmpty_append
    · exact hva new
    · exact noEmpty_of_under (errsUnder_if (errsUnder_self rfl) (errsUnder_nil _))
  · intro new old opts
    unfold ValidateCSINodeUpdate
    apply noEmpty_append
    · exact hnode new opts
    · exact noEmpty_of_under (under_csiNodeUpdateOuter _ _)
  · intro cd
    unfold ValidateCSIDriver
    apply noEmpty_append
    · exact noEmpty_of_under (h.objectMeta _ _ _ _)
    · exact noEmpty_of_under (under_validateCSIDriverSpec ext _ _)
  · intro new old
    unfold ValidateCSIDriverUpdate
    apply noEmpty_append
    apply noEmpty_append
    apply noEmpty_append
    apply noEmpty_append
    apply noEmpty_append
    apply noEmpty_append
    · exact noEmpty_of_under (h.objectMetaUpdate _ _ _)
    · exact noEmpty_of_under_child (under_validateImmutableField _ _ _ _)
    · exact noEmpty_of_under_child (under_validateImmutableField _ _ _ _)
    · exact noEmpty_of_under_child (under_validateImmutableField _ _ _ _)
    · exact noEmpty_of_under_child (under_validateImmutableField _ _ _ _)
    · exact noEmpty_of_under_child (under_validateImmutableField _ _ _ _)
    · exact noEmpty_of_under_child (under_validateTokenRequests _ _)
  · intro cap
    unfold ValidateCSIStorageCapacity
    apply noEmpty_append
    apply noEmpty_append
    apply noEmpty_append
    · exact noEmpty_of_under (h.objectMeta _ _ _ _)
    · exact noEmpty_of_under (h.labelSelector _ _)
    · exact noEmpty_of_under (s := "storageClassName")
        (errsUnder_map_msgs (fun m => ⟨[], by simp [field.Invalid]⟩))
    · match cap.capacity with
      | none =>
        intro e he
        exact absurd he (List.not_mem_nil e)
      | some q => exact noEmpty_of_under (h.nonnegativeQuantity _ _)
  · intro cap oldCap
    unfold ValidateCSIStorageCapacityUpdate
    apply noEmpty_append
    apply noEmpty_append
    · exact noEmpty_of_under (h.objectMetaUpdate _ _ _)
    · exact noEmpty_of_under (errsUnder_if (errsUnder_self rfl) (errsUnder_nil _))
    · exact noEmpty_of_under (errsUnder_if (errsUnder_self rfl) (errsUnder_nil _))

/-- Witness for C8: the theorem applied to trivialExt (trivially
path-local) at explicit inputs. -/
theorem c8_witness :
    NoEmptyPath (ValidateVolumeAttachment trivialExt vaNew)
    ∧ NoEmptyPath (ValidateCSINode trivialExt nodeNew ⟨false⟩) :=
  ⟨(c8_all_errors_have_nonempty_paths trivialExt trivialExt_under).2.2.1 vaNew,
   (c8_all_errors_have_nonempty_paths trivialExt trivialExt_under).2.2.2.2.2.1 nodeNew ⟨false⟩⟩

end StorageValidation
